import Mathlib

/-!
Verification development for the Moonskai editor document session engine
(src/moonskai-editor.js). The JavaScript source is shallowly embedded:
pure computations become Lean functions, the mutable session object becomes
an explicit `Session` value threaded through the operations, and the
asynchronous browser APIs (file handles, pickers, the IndexedDB store)
become explicit environment records describing the outcome of each
external call. Definitions keep the names of the source functions.
-/

namespace Moonskai

/-- JavaScript `a || b` on strings: the empty string is falsy. -/
def jsOr (a b : String) : String := if a = "" then b else a

/-- The decimal digit character for `d < 10`. -/
def digitChar10 (d : Nat) : Char :=
  if d = 0 then '0' else if d = 1 then '1' else if d = 2 then '2'
  else if d = 3 then '3' else if d = 4 then '4' else if d = 5 then '5'
  else if d = 6 then '6' else if d = 7 then '7' else if d = 8 then '8'
  else '9'

/-- Numeric value of a decimal digit character. -/
def digitVal (c : Char) : Nat := c.toNat - 48

/-- Structural helper for the decimal rendering: `fuel ≥ n` rounds always
suffice, and the value is fuel-independent in that range (shown below). -/
def natDecimalListAux : Nat → Nat → List Char
  | 0, n => [digitChar10 n]
  | fuel + 1, n =>
    if n < 10 then [digitChar10 n]
    else natDecimalListAux fuel (n / 10) ++ [digitChar10 (n % 10)]

/-- Decimal digit list of a natural number, most significant first.
Embeds the JavaScript template literal number rendering `${i}`. -/
def natDecimalList (n : Nat) : List Char := natDecimalListAux n n

/-- Decimal string of a natural number (JavaScript `${n}`). -/
def natDecimal (n : Nat) : String := ⟨natDecimalList n⟩

/-- Fold a digit list back into the number it denotes. -/
def decodeDec (l : List Char) : Nat := l.foldl (fun a c => 10 * a + digitVal c) 0

/-! ### Data model

A `Tab` is the document entity of src/moonskai-editor.js:534-543: the
Monaco text model is embedded as its string value (`content`), the file
handle as an optional capability record, `viewState` is ephemeral UI
state and is not modelled. -/

/-- A File System Access file handle, as bound to a tab. Only its display
name is state of the handle itself; permission answers and write outcomes
are per-attempt environment data (`WriteEnv`). -/
structure Handle where
  hname : String
deriving DecidableEq, Repr

/-- One open document (a tab), src/moonskai-editor.js:534-543. -/
structure Tab where
  id : String
  name : String
  language : String
  content : String
  handle : Option Handle
  dirty : Bool
deriving DecidableEq, Repr

/-- The settings fields the session engine reads (DEFAULT_SETTINGS in the
source has more entries; only these influence the verified operations). -/
structure Settings where
  autosave : Bool
  trimTrailing : Bool
deriving DecidableEq, Repr

/-- The session-global compare entity (state.compare in the source). The
Monaco model is embedded as an optional string: `none` before the boot
code creates it, `some text` afterwards. -/
structure Compare where
  cname : String
  language : String
  model : Option String
  handle : Option Handle
deriving DecidableEq, Repr

/-- state.view: presentation mode ("split" or "diff") and split layout
("split" or "single"). -/
structure View where
  mode : String
  layout : String
deriving DecidableEq, Repr

/-- state.scrollLock. -/
structure ScrollLock where
  enabled : Bool
  mode : String
  lineDelta : Int
deriving DecidableEq, Repr

/-- The mutable editor session (the `state` object plus the module-level
editor bindings that the claims mention). `diffEditor` records whether the
Monaco diff editor has been created, `diffEditorEl` whether its container
element exists in the page, and `diffMaster` which tab id the original
(left, editable) side of the diff pair is currently bound to. -/
structure Session where
  tabs : List Tab
  activeId : Option String
  settings : Settings
  compare : Compare
  view : View
  scrollLock : ScrollLock
  diffEditor : Bool
  diffEditorEl : Bool
  diffMaster : Option String
deriving DecidableEq, Repr

/-- activeTab (src/moonskai-editor.js:514-516). -/
def activeTab (s : Session) : Option Tab :=
  s.tabs.find? (fun t => some t.id == s.activeId)

/-! ### Unique tab names

ensureUniqueName (src/moonskai-editor.js:518-524). The unbounded JS
`while` loop is embedded with explicit fuel; `names.length + 1` rounds of
fuel always suffice (shown below), so the embedding computes exactly the
value of the source loop: the least `i ≥ 2` whose candidate is free. -/

/-- The candidate name `` `${baseName} ${i}` `` tried by the loop. -/
def candName (base : String) (i : Nat) : String := base ++ " " ++ natDecimal i

/-- The `while (existing.has(...)) i++` loop, with fuel. -/
def uniqueNameLoop (names : List String) (base : String) : Nat → Nat → Nat
  | 0, i => i
  | fuel + 1, i =>
    if candName base i ∈ names then uniqueNameLoop names base fuel (i + 1) else i

/-- ensureUniqueName (src/moonskai-editor.js:518-524). -/
def ensureUniqueName (names : List String) (base : String) : String :=
  if base ∈ names then
    candName base (uniqueNameLoop names base (names.length + 1) 2)
  else base

/-! ### Language inference and tab creation -/

/-- The extension table inside inferLanguageFromFilename
(src/moonskai-editor.js:287-352); an unknown extension maps to the empty
string, standing for the absent JS map entry. -/
def extMap (ext : String) : String :=
  match ext with
  | ".txt" => "plaintext" | ".md" => "markdown"
  | ".json" => "json" | ".yaml" => "yaml" | ".yml" => "yaml"
  | ".xml" => "xml" | ".svg" => "xml" | ".sql" => "sql"
  | ".js" => "javascript" | ".mjs" => "javascript" | ".cjs" => "javascript"
  | ".jsx" => "javascript" | ".ts" => "typescript" | ".tsx" => "typescript"
  | ".html" => "html" | ".htm" => "html" | ".ejs" => "ejs"
  | ".css" => "css" | ".scss" => "scss" | ".less" => "less"
  | ".py" => "python"
  | ".c" => "c" | ".h" => "c" | ".cc" => "cpp" | ".cpp" => "cpp"
  | ".cxx" => "cpp" | ".hpp" => "cpp" | ".hh" => "cpp"
  | ".cs" => "csharp" | ".java" => "java" | ".go" => "go" | ".rs" => "rust"
  | ".php" => "php" | ".rb" => "ruby" | ".lua" => "lua"
  | ".kt" => "kotlin" | ".kts" => "kotlin" | ".swift" => "swift"
  | ".sh" => "shell" | ".bash" => "shell" | ".zsh" => "shell"
  | ".ps1" => "powershell" | ".bat" => "bat" | ".cmd" => "bat"
  | ".dockerfile" => "dockerfile"
  | _ => ""

/-- The extension of the lowercased trimmed name, from its last dot to the
end (JS `n.slice(n.lastIndexOf("."))`), or the empty string when there is
no dot. -/
def extOf (n : String) : String :=
  if n.toList.contains '.' then
    ⟨'.' :: (n.toList.reverse.takeWhile (fun c => c != '.')).reverse⟩
  else ""

/-- inferLanguageFromFilename (src/moonskai-editor.js:287-352). -/
def inferLanguageFromFilename (name : String) : String :=
  let n := name.toLower.trim
  if n = "dockerfile" then "dockerfile"
  else jsOr (extMap (extOf n)) "plaintext"

/-- The argument object of createTab; absent JS fields are the empty
string / `none`. -/
structure CreateArgs where
  aname : String
  content : String
  language : String
  handle : Option Handle
deriving DecidableEq, Repr

/-- The tab object createTab constructs (src/moonskai-editor.js:526-543). -/
def createdTab (s : Session) (id : String) (a : CreateArgs) : Tab :=
  { id := id,
    name := ensureUniqueName (s.tabs.map (·.name)) (jsOr a.aname "untitled"),
    language := jsOr a.language
      (inferLanguageFromFilename
        (ensureUniqueName (s.tabs.map (·.name)) (jsOr a.aname "untitled"))),
    content := a.content, handle := a.handle, dirty := false }

/-- createTab (src/moonskai-editor.js:526-546). The random uuid is
supplied by the caller as `id`; `ensureLanguageLoaded` only loads syntax
support and does not affect session state. The new tab is appended and
not activated. -/
def createTab (s : Session) (id : String) (a : CreateArgs) : Session × Tab :=
  ({ s with tabs := s.tabs ++ [createdTab s id a] }, createdTab s id a)

/-- Replace the tab with the matching id (models in-place mutation of a
tab object that is shared between the tabs array and local variables). -/
def updateTab (s : Session) (t : Tab) : Session :=
  { s with tabs := s.tabs.map (fun x => if x.id == t.id then t else x) }

/-! ### Diff binding and activation -/

/-- syncDiffModel (src/moonskai-editor.js:979-994): rebinds the diff pair
to (active tab model, compare model); a no-op when the diff editor does
not exist or either model is missing. -/
def syncDiffModel (s : Session) : Session :=
  if !s.diffEditor then s
  else
    match activeTab s, s.compare.model with
    | some t, some _ => { s with diffMaster := some t.id }
    | _, _ => s

/-- ensureDiffEditor (src/moonskai-editor.js:961-977). -/
def ensureDiffEditor (s : Session) : Session :=
  if s.diffEditor || !s.diffEditorEl then s else { s with diffEditor := true }

/-- setActiveTab (src/moonskai-editor.js:596-623): silently a no-op for an
unknown id; stores the outgoing view state (not modelled), rebinds the
primary editor, and re-syncs the diff pair while in diff mode. -/
def setActiveTab (s : Session) (id : String) : Session :=
  match s.tabs.find? (fun t => t.id == id) with
  | none => s
  | some _ =>
    if s.view.mode = "diff" then syncDiffModel { s with activeId := some id }
    else { s with activeId := some id }

/-- sampleForLanguage (src/moonskai-editor.js:353-374). -/
def sampleForLanguage (lang : String) : String :=
  if lang = "javascript" then
    "// JavaScript sample\nconsole.log(\x27Hello, world\x27);\n"
  else if lang = "ejs" then
    "<!-- EJS sample -->\n<div class=\"card\">\n  <h1><%= title %></h1>\n  <p>Hello, <%= user %></p>\n</div>\n"
  else ""

/-- The createTab argument object newTab passes
(src/moonskai-editor.js:1694-1698). -/
def newTabArgs : CreateArgs :=
  { aname := "untitled", content := sampleForLanguage "flow",
    language := "flow", handle := none }

/-- newTab (src/moonskai-editor.js:1693-1704): creates an untitled "flow"
document and activates it. -/
def newTab (s : Session) (id : String) : Session :=
  setActiveTab
    { (createTab s id newTabArgs).1 with
        activeId := some (createTab s id newTabArgs).2.id }
    (createTab s id newTabArgs).2.id

/-- closeTab (src/moonskai-editor.js:625-652). Returns the new session and
the list of tab ids whose buffer model was disposed. `newId` is the uuid
the replacement tab receives when the last tab is closed. -/
def closeTab (s : Session) (id : String) (newId : String) : Session × List String :=
  match s.tabs.findIdx? (fun t => t.id == id) with
  | none => (s, [])
  | some idx =>
    if (s.tabs.eraseIdx idx).isEmpty then
      (newTab { s with tabs := s.tabs.eraseIdx idx } newId, [id])
    else if s.activeId = some id then
      match (s.tabs.eraseIdx idx).get? (min idx ((s.tabs.eraseIdx idx).length - 1)) with
      | some next => (setActiveTab { s with tabs := s.tabs.eraseIdx idx } next.id, [id])
      | none => ({ s with tabs := s.tabs.eraseIdx idx }, [id])
    else ({ s with tabs := s.tabs.eraseIdx idx }, [id])

/-- The session state right after boot initialisation
(src/moonskai-editor.js:180-190), with the diff container element present. -/
def initSession : Session :=
  { tabs := [], activeId := none,
    settings := { autosave := false, trimTrailing := false },
    compare := { cname := "—", language := "plaintext", model := none, handle := none },
    view := { mode := "split", layout := "split" },
    scrollLock := { enabled := false, mode := "sync", lineDelta := 0 },
    diffEditor := false, diffEditorEl := true, diffMaster := none }

/-- `n` successive createTab calls that all supply the same base name. -/
def createMany (base : String) : Nat → Session
  | 0 => initSession
  | n + 1 =>
    (createTab (createMany base n) (natDecimal n)
      { aname := base, content := "", language := "", handle := none }).1

/-- The name sequence the specification predicts: base, base 2, base 3, … -/
def expectedNames (base : String) (n : Nat) : List String :=
  (List.range n).map (fun j => if j = 0 then base else candName base (j + 1))

/-- An edit of the active document: the bound Monaco model changes value
and the onDidChangeModelContent handler (src/moonskai-editor.js:2329-2336)
marks the active tab dirty. -/
def onDidChangeModelContent (s : Session) (newContent : String) : Session :=
  match activeTab s with
  | none => s
  | some t => updateTab s { t with content := newContent, dirty := true }

/-! ### Save coordinator -/

/-- trimTrailingWhitespace (src/moonskai-editor.js:1401-1405): per line,
remove a maximal trailing run of spaces and tabs (the regex
`[ \t]+$` with the m flag); only active when the setting is on. -/
def trimTrailingWhitespace (st : Settings) (text : String) : String :=
  if !st.trimTrailing then text
  else
    String.intercalate "\n"
      ((text.splitOn "\n").map (fun l =>
        ⟨(l.toList.reverse.dropWhile (fun c => c == ' ' || c == '\t')).reverse⟩))

/-- getTextForSave (src/moonskai-editor.js:1407-1410). -/
def getTextForSave (st : Settings) (t : Tab) : String :=
  trimTrailingWhitespace st t.content

/-- Except with decidable equality, for decidable statements about save
outcomes. -/
instance {e a : Type} [DecidableEq e] [DecidableEq a] :
    DecidableEq (Except e a) := fun x y =>
  match x, y with
  | .error u, .error v =>
    match decEq u v with
    | isTrue h => isTrue (congrArg Except.error h)
    | isFalse h => isFalse fun hc => h (Except.error.inj hc)
  | .ok u, .ok v =>
    match decEq u v with
    | isTrue h => isTrue (congrArg Except.ok h)
    | isFalse h => isFalse fun hc => h (Except.ok.inj hc)
  | .error _, .ok _ => isFalse fun hc => Except.noConfusion hc
  | .ok _, .error _ => isFalse fun hc => Except.noConfusion hc

/-- Result of `handle.queryPermission({mode: "readwrite"})`. -/
inductive PermState
  | granted
  | prompt
  | denied
deriving DecidableEq, Repr

/-- Outcomes of the external calls a single write attempt can make. The
handles in this program always come from the File System Access pickers or
their persisted clones, so `queryPermission` exists on them; `queryOk`
is false when that call itself throws. -/
structure WriteEnv where
  queryOk : Bool
  queryResult : PermState
  createOk : Bool
  writeOk : Bool
  closeOk : Bool
deriving DecidableEq, Repr

/-- Trace of the externally visible actions one writeTabToHandle call
performed. `promptPath` is true when createWritable was reached with the
interactive (may-prompt) policy; `payload` is the text handed to
`writable.write`. -/
structure WriteEffects where
  promptPath : Bool := false
  opened : Bool := false
  writeInvoked : Bool := false
  wroteOk : Bool := false
  closeInvoked : Bool := false
  payload : Option String := none
deriving DecidableEq, Repr

/-- writeTabToHandle (src/moonskai-editor.js:1411-1444). Returns the JS
outcome (`Except.error ()` models a thrown exception, `Except.ok b` the
returned boolean), the tab as the call leaves it, and the effect trace.
The source awaits createWritable, write and close in sequence with no
try/finally, so a failure at any step propagates immediately. -/
def writeTabToHandle (st : Settings) (t : Tab) (promptPermission : Bool)
    (env : WriteEnv) : Except Unit Bool × Tab × WriteEffects :=
  if t.handle.isNone then (.ok false, t, {})
  else if !promptPermission && !(env.queryOk && env.queryResult == .granted) then
    (.ok false, t, {})
  else
    let text := getTextForSave st t
    if !env.createOk then
      (.error (), t, { promptPath := promptPermission })
    else if !env.writeOk then
      (.error (), t,
        { promptPath := promptPermission, opened := true, writeInvoked := true,
          payload := some text })
    else if !env.closeOk then
      (.error (), t,
        { promptPath := promptPermission, opened := true, writeInvoked := true,
          wroteOk := true, closeInvoked := true, payload := some text })
    else
      (.ok true, { t with dirty := false },
        { promptPath := promptPermission, opened := true, writeInvoked := true,
          wroteOk := true, closeInvoked := true, payload := some text })

/-- The schedule-time guards of autosaveActiveSoon
(src/moonskai-editor.js:1451-1475): the timer is only armed when autosave
is enabled and the active tab exists and is bound to a file; the armed
closure captures that tab. Returns the captured tab id, or `none` when no
timer is armed. -/
def autosaveActiveSoon (s : Session) : Option String :=
  if !s.settings.autosave then none
  else
    match activeTab s with
    | none => none
    | some t => if t.handle.isNone then none else some t.id

/-- The timer callback of autosaveActiveSoon firing against the session
state `s` at fire time, with `capturedId` the tab id captured at schedule
time and `busy` the autosaveBusy in-flight flag. Exceptions from
writeTabToHandle are caught and logged. -/
def autosaveFire (capturedId : String) (busy : Bool) (s : Session)
    (env : WriteEnv) : Session × WriteEffects :=
  if busy then (s, {})
  else
    match activeTab s with
    | none => (s, {})
    | some cur =>
      if cur.id != capturedId then (s, {})
      else if !cur.dirty then (s, {})
      else
        match writeTabToHandle s.settings cur false env with
        | (_, t1, fx) => (updateTab s t1, fx)

/-- The status a save operation ends in. -/
inductive SaveOutcome
  | noTab
  | saved
  | needsPermission
  | saveFailed
  | savedAs
  | saveAsNeedsPermission
  | canceled
  | downloaded
deriving DecidableEq, Repr

/-- Outcome of `window.showSaveFilePicker`. -/
inductive PickerResult
  | picked (h : Handle)
  | aborted
  | failed
deriving DecidableEq, Repr

/-- Environment of one interactive save operation. -/
structure SaveEnv where
  writeEnv : WriteEnv
  pickerAvailable : Bool
  pickerResult : PickerResult
  promptName : Option String
deriving Repr

/-- The filename sanitisation of the download fallback
(src/moonskai-editor.js:1537): `replace(/[\\\/:*?"<>|]/g, "_")`. -/
def sanitizeFilename (nm : String) : String :=
  ⟨nm.toList.map (fun c =>
    if c == '\\' || c == '/' || c == ':' || c == '*' || c == '?'
        || c == '"' || c == '<' || c == '>' || c == '|' then '_' else c)⟩

/-- The download fallback tail of saveAsActive
(src/moonskai-editor.js:1536-1558): prompt for a filename (an empty or
null answer cancels), rename the tab, trigger the blob download of
getTextForSave, and only then clear dirty. -/
def fallbackDownload (s : Session) (t : Tab) (env : SaveEnv) :
    Session × SaveOutcome :=
  let suggested := sanitizeFilename (jsOr t.name "untitled")
  match env.promptName with
  | none => (s, .canceled)
  | some nm =>
    if nm = "" then (s, .canceled)
    else
      let t1 : Tab := { t with name := jsOr nm.trim suggested }
      let t2 : Tab := { t1 with dirty := false }
      (updateTab s t2, .downloaded)

/-- The picked-handle branch of saveAsActive
(src/moonskai-editor.js:1513-1524): the tab is rebound and renamed before
the write, a true write returns Saved As, and a thrown write error is
caught by the surrounding try and falls through to the download fallback.
`t1` is the rebound tab. -/
def saveAsPicked (s : Session) (t1 : Tab) (env : SaveEnv) : Session × SaveOutcome :=
  match writeTabToHandle (updateTab s t1).settings t1 true env.writeEnv with
  | (.ok true, t2, _) => (updateTab (updateTab s t1) t2, .savedAs)
  | (.ok false, t2, _) => (updateTab (updateTab s t1) t2, .saveAsNeedsPermission)
  | (.error _, t2, _) => fallbackDownload (updateTab (updateTab s t1) t2) t2 env

/-- saveAsActive (src/moonskai-editor.js:1504-1559). The picker try block
also spans the write, so a non-abort failure of either falls through to
the download fallback; a user abort cancels cleanly. -/
def saveAsActive (s : Session) (env : SaveEnv) : Session × SaveOutcome :=
  match activeTab s with
  | none => (s, .noTab)
  | some t =>
    if env.pickerAvailable then
      match env.pickerResult with
      | .picked h =>
        saveAsPicked s
          { t with handle := some h, name := if h.hname != "" then h.hname else t.name }
          env
      | .aborted => (s, .canceled)
      | .failed => fallbackDownload s t env
    else fallbackDownload s t env

/-- saveActive (src/moonskai-editor.js:1478-1502): overwrite through the
bound handle with prompting allowed; on a false return report
needs-permission, on a thrown error report failure, in both cases without
falling through to save-as; an unbound tab delegates to save-as. -/
def saveActive (s : Session) (env : SaveEnv) : Session × SaveOutcome :=
  match activeTab s with
  | none => (s, .noTab)
  | some t =>
    if t.handle.isSome then
      match writeTabToHandle s.settings t true env.writeEnv with
      | (.ok true, t1, _) => (updateTab s t1, .saved)
      | (.ok false, t1, _) => (updateTab s t1, .needsPermission)
      | (.error _, t1, _) => (updateTab s t1, .saveFailed)
    else saveAsActive s env

/-- The body of the saveAll loop (src/moonskai-editor.js:1561-1569): for
each tab in order, point state.activeId at it, rebind the editor, and run
saveActive. Returns the per-tab outcomes alongside the final session. -/
def saveAllLoop (s : Session) (ids : List String) (envs : String → SaveEnv) :
    Session × List (String × SaveOutcome) :=
  match ids with
  | [] => (s, [])
  | id :: rest =>
    ((saveAllLoop (saveActive { s with activeId := some id } (envs id)).1 rest envs).1,
      (id, (saveActive { s with activeId := some id } (envs id)).2) ::
        (saveAllLoop (saveActive { s with activeId := some id } (envs id)).1 rest envs).2)

/-- saveAll (src/moonskai-editor.js:1561-1569): run the loop over the tab
list, then `setActiveTab(state.activeId)` with whatever id the loop left
behind. -/
def saveAll (s : Session) (envs : String → SaveEnv) :
    Session × List (String × SaveOutcome) :=
  match (saveAllLoop s (s.tabs.map (·.id)) envs).1.activeId with
  | some i =>
    (setActiveTab (saveAllLoop s (s.tabs.map (·.id)) envs).1 i,
      (saveAllLoop s (s.tabs.map (·.id)) envs).2)
  | none => saveAllLoop s (s.tabs.map (·.id)) envs

/-! ### Session persistence -/

/-- A record of the IndexedDB documents collection
(src/moonskai-editor.js:1597-1604). -/
structure PersistedDoc where
  id : String
  name : String
  language : String
  content : String
  dirty : Bool
  handle : Option Handle
deriving DecidableEq, Repr

/-- The durable store: the documents collection plus the
`session_activeId` key/value entry. -/
structure Store where
  docs : List PersistedDoc
  activeId : Option String
deriving DecidableEq, Repr

/-- The snapshot persistSession takes of one tab
(src/moonskai-editor.js:1586-1604): the model value is stored verbatim
(`t.model.getValue()`, no trim), and the handle only when
structuredClone accepts it (`cloneable`). -/
def snapshotDoc (cloneable : Handle → Bool) (t : Tab) : PersistedDoc :=
  { id := t.id, name := t.name, language := t.language, content := t.content,
    dirty := t.dirty,
    handle :=
      match t.handle with
      | some h => if cloneable h then some h else none
      | none => none }

/-- docsPut: an IndexedDB `put` keyed by id — replace the record with the
same id, else append. -/
def docsPut (l : List PersistedDoc) (d : PersistedDoc) : List PersistedDoc :=
  if l.any (fun e => e.id == d.id) then
    l.map (fun e => if e.id == d.id then d else e)
  else l ++ [d]

/-- persistSession (src/moonskai-editor.js:1581-1626): snapshot every open
tab, delete store records whose id is no longer open, put every snapshot,
and record the active id pointer. Store writes are modelled as succeeding
(the retry-without-handle error path produces the same record as a
cloneability failure). -/
def persistSession (s : Session) (cloneable : Handle → Bool) (st : Store) :
    Store :=
  { docs := (s.tabs.map (snapshotDoc cloneable)).foldl docsPut
      (st.docs.filter (fun d =>
        ((s.tabs.map (snapshotDoc cloneable)).map (fun x => x.id)).contains d.id)),
    activeId := s.activeId }

/-- loadSession (src/moonskai-editor.js:1630-1657): reset the tab list,
re-create one tab per stored record (preserving id and dirty), restore the
stored active id when it is among the restored tabs, else the first
restored tab, then activate. The uuid that createTab draws is immediately
overwritten with the stored id, so the stored id is passed directly.
`loadStep` is the body of the re-creation loop: one createTab call whose
resulting tab is patched with the stored dirty flag. -/
def loadStep (acc : Session) (d : PersistedDoc) : Session :=
  updateTab
    (createTab acc d.id
      { aname := d.name, content := d.content, language := d.language,
        handle := d.handle }).1
    { (createTab acc d.id
        { aname := d.name, content := d.content, language := d.language,
          handle := d.handle }).2 with dirty := d.dirty }

/-- The per-record re-creation loop of loadSession, started from the
session whose tab list was reset. -/
def loadRestored (st : Store) (s : Session) : Session :=
  st.docs.foldl loadStep { s with tabs := [] }

/-- The active-id restoration step of loadSession: the stored active id
when it is among the restored tabs, else the first restored tab. -/
def loadActive (st : Store) (s1 : Session) : Session :=
  if (match st.activeId with
      | some a => s1.tabs.any (fun t => t.id == a)
      | none => false) then
    { s1 with activeId := st.activeId }
  else
    match s1.tabs.head? with
    | some t0 => { s1 with activeId := some t0.id }
    | none => s1

def loadSession (st : Store) (s : Session) : Session :=
  match (loadActive st (loadRestored st s)).activeId with
  | some a => setActiveTab (loadActive st (loadRestored st s)) a
  | none => loadActive st (loadRestored st s)

/-- The persisted projection of a tab the round-trip claim compares:
id, name, language and byte-exact content. -/
def tabTuple (t : Tab) : String × String × String × String :=
  (t.id, t.name, t.language, t.content)

/-- The tab a stored record reconstructs when its name needs no renaming. -/
def docToTab (d : PersistedDoc) : Tab :=
  { id := d.id, name := d.name, language := d.language, content := d.content,
    handle := d.handle, dirty := d.dirty }

/-- Session well-formedness: the invariants the engine maintains for its
open tabs (ids are unique and never reused, names are unique and
non-empty, languages are never empty). -/
def wfSession (s : Session) : Prop :=
  (s.tabs.map (·.id)).Nodup ∧ (s.tabs.map (·.name)).Nodup ∧
    (∀ t ∈ s.tabs, t.name ≠ "") ∧ (∀ t ∈ s.tabs, t.language ≠ "")

instance (s : Session) : Decidable (wfSession s) := by
  unfold wfSession; infer_instance

/-! ### View modes -/

/-- applySplitLayoutClass (src/moonskai-editor.js:907-924): in diff mode
or single layout the split controls are disabled and an engaged scroll
lock is dropped. -/
def applySplitLayoutClass (s : Session) : Session :=
  if (s.view.mode = "diff" ∨ s.view.layout = "single") ∧ s.scrollLock.enabled then
    { s with scrollLock := { s.scrollLock with enabled := false } }
  else s

/-- setViewMode (src/moonskai-editor.js:875-903): record the mode, drop
scroll lock when entering diff, create the diff editor if needed and
re-sync the diff pair, then apply the layout class. -/
def setViewMode (s : Session) (mode : String) : Session :=
  if mode = "diff" then
    applySplitLayoutClass
      (syncDiffModel (ensureDiffEditor
        { s with view := { s.view with mode := mode },
                 scrollLock := { s.scrollLock with enabled := false } }))
  else applySplitLayoutClass { s with view := { s.view with mode := mode } }

/-! ### Scroll lock -/

/-- One editor pane as the scroll-lock code reads it: the pixel scroll
offset and the (positive) pixel line height. -/
structure Pane where
  scrollTop : Nat
  lineHeight : Nat
deriving DecidableEq, Repr

/-- The pixel-derived top line used throughout the scroll-lock code:
`Math.floor(scrollTop / lineHeight) + 1`. -/
def topLine (p : Pane) : Nat := p.scrollTop / p.lineHeight + 1

/-- clamp (src/moonskai-editor.js:270-272) over the integers. -/
def clampI (n a b : Int) : Int := max a (min b n)

/-- JavaScript `Math.round (a / b)` for natural `a` and positive `b`
(round half up), computed exactly. -/
def roundHalfUp (a b : Nat) : Nat := (2 * a + b) / (2 * b)

/-- recomputeScrollLockDelta (src/moonskai-editor.js:996-1014): in sync
policy the delta is zero; in offset policy it is the difference of the
two panes current pixel-derived top lines. -/
def recomputeScrollLockDelta (mode : String) (master compare : Pane) : Int :=
  if mode = "sync" then 0
  else (topLine compare : Int) - (topLine master : Int)

/-- The clamped target top line of the compare pane
(src/moonskai-editor.js:1037-1039): `clamp(masterTopLine + delta, 1,
maxLine)` with delta 0 under the sync policy. -/
def syncCompareLine (lock : ScrollLock) (master : Pane)
    (compareLineCount : Nat) : Int :=
  clampI ((topLine master : Int)
      + (if lock.mode = "sync" then 0 else lock.lineDelta))
    1 (compareLineCount : Int)

/-- The pixel scroll target syncCompareScrollFromMaster computes
(src/moonskai-editor.js:1028-1044): the top pixel of the clamped target
line (`getTopForLineNumber`, modelled as `(line - 1) * lineHeight` with
uniform line height) plus the sub-line remainder of the master pane
rescaled by the line-height ratio and rounded (`Math.round`). -/
def syncCompareTarget (lock : ScrollLock) (master compare : Pane)
    (compareLineCount : Nat) : Int :=
  (syncCompareLine lock master compareLineCount - 1) * (compare.lineHeight : Int)
    + (roundHalfUp
        ((master.scrollTop - master.scrollTop / master.lineHeight * master.lineHeight)
          * compare.lineHeight)
        master.lineHeight : Int)

/-- syncCompareScrollFromMaster (src/moonskai-editor.js:1016-1048).
Returns `some target` when the compare pane scroll position is written,
`none` when the write is skipped (lock disabled, diff mode, or the target
within one pixel of the current position). -/
def syncCompareScrollFromMaster (lock : ScrollLock) (viewMode : String)
    (master compare : Pane) (compareLineCount : Nat) : Option Int :=
  if !lock.enabled || viewMode == "diff" then none
  else
    if ((compare.scrollTop : Int)
        - syncCompareTarget lock master compare compareLineCount).natAbs > 1
    then some (syncCompareTarget lock master compare compareLineCount)
    else none

/-! ## Theorems -/

theorem digitVal_digitChar10 {d : Nat} (h : d < 10) :
    digitVal (digitChar10 d) = d := by
  interval_cases d <;> rfl

theorem decodeDec_append_singleton (l : List Char) (c : Char) :
    decodeDec (l ++ [c]) = 10 * decodeDec l + digitVal c := by
  simp [decodeDec, List.foldl_append]

theorem natDecimalListAux_irrel :
    ∀ (n f1 f2 : Nat), n ≤ f1 → n ≤ f2 →
      natDecimalListAux f1 n = natDecimalListAux f2 n := by
  intro n
  induction n using Nat.strong_induction_on with
  | _ n ih =>
    intro f1 f2 h1 h2
    match f1, f2 with
    | 0, 0 => rfl
    | 0, g2 + 1 =>
      have hn : n = 0 := by omega
      subst hn
      simp [natDecimalListAux]
    | g1 + 1, 0 =>
      have hn : n = 0 := by omega
      subst hn
      simp [natDecimalListAux]
    | g1 + 1, g2 + 1 =>
      show (if n < 10 then _ else _) = (if n < 10 then _ else _)
      by_cases h : n < 10
      · simp [h]
      · simp only [h, if_false]
        congr 1
        exact ih (n / 10) (Nat.div_lt_self (by omega) (by omega)) g1 g2
          (by omega) (by omega)

theorem natDecimalList_eq (n : Nat) :
    natDecimalList n = if n < 10 then [digitChar10 n]
      else natDecimalList (n / 10) ++ [digitChar10 (n % 10)] := by
  show natDecimalListAux n n = _
  by_cases h : n < 10
  · cases n with
    | zero => simp [natDecimalListAux, h]
    | succ m => simp [natDecimalListAux, h]
  · cases hn : n with
    | zero => omega
    | succ m =>
      have h2 : ¬(m + 1 < 10) := hn ▸ h
      show (if m + 1 < 10 then [digitChar10 (m + 1)]
          else natDecimalListAux m ((m + 1) / 10) ++ [digitChar10 ((m + 1) % 10)]) = _
      rw [if_neg h2, if_neg h2]
      congr 1
      exact natDecimalListAux_irrel ((m + 1) / 10) m ((m + 1) / 10)
        (by omega) le_rfl

theorem decodeDec_natDecimalList (n : Nat) :
    decodeDec (natDecimalList n) = n := by
  induction n using Nat.strong_induction_on with
  | _ n ih =>
    rw [natDecimalList_eq]
    by_cases h : n < 10
    · simp only [h, if_pos]
      simp [decodeDec, digitVal_digitChar10 h]
    · simp only [h, if_false]
      rw [decodeDec_append_singleton,
        ih (n / 10) (Nat.div_lt_self (by omega) (by omega)),
        digitVal_digitChar10 (Nat.mod_lt _ (by omega))]
      omega

theorem natDecimalList_injective : Function.Injective natDecimalList := by
  intro a b h
  have := decodeDec_natDecimalList a
  rw [h, decodeDec_natDecimalList b] at this
  omega

theorem natDecimal_injective : Function.Injective natDecimal := by
  intro a b h
  exact natDecimalList_injective (congrArg String.data h)

theorem natDecimalList_ne_nil (n : Nat) : natDecimalList n ≠ [] := by
  rw [natDecimalList_eq]
  by_cases h : n < 10 <;> simp [h]

theorem candName_injective (base : String) : Function.Injective (candName base) := by
  intro a b h
  have hd : (base.data ++ " ".data) ++ natDecimalList a
      = (base.data ++ " ".data) ++ natDecimalList b := by
    have h2 := congrArg String.data h
    simp only [candName, String.data_append] at h2
    exact h2
  exact natDecimalList_injective (List.append_cancel_left hd)

theorem candName_ne_base (base : String) (i : Nat) : candName base i ≠ base := by
  intro h
  have hlen := congrArg String.length h
  simp only [candName, String.length_append] at hlen
  have h1 : (" " : String).length = 1 := rfl
  have h2 : (natDecimal i).length = (natDecimalList i).length := rfl
  have h3 : (natDecimalList i).length ≠ 0 :=
    fun hz => natDecimalList_ne_nil i (List.length_eq_zero.mp hz)
  omega

theorem uniqueNameLoop_le (names : List String) (base : String) :
    ∀ fuel i, uniqueNameLoop names base fuel i ≤ i + fuel := by
  intro fuel
  induction fuel with
  | zero => intro i; simp [uniqueNameLoop]
  | succ f ih =>
    intro i
    rw [uniqueNameLoop]
    by_cases h : candName base i ∈ names
    · simp only [h, if_true]
      have := ih (i + 1)
      omega
    · simp only [h, if_false]
      omega

theorem uniqueNameLoop_mem_below (names : List String) (base : String) :
    ∀ fuel i j, i ≤ j → j < uniqueNameLoop names base fuel i →
      candName base j ∈ names := by
  intro fuel
  induction fuel with
  | zero => intro i j hij hj; simp [uniqueNameLoop] at hj; omega
  | succ f ih =>
    intro i j hij hj
    rw [uniqueNameLoop] at hj
    by_cases h : candName base i ∈ names
    · simp only [h, if_true] at hj
      rcases Nat.eq_or_lt_of_le hij with rfl | hlt
      · exact h
      · exact ih (i + 1) j hlt hj
    · simp only [h, if_false] at hj; omega

theorem uniqueNameLoop_notMem_of_lt (names : List String) (base : String) :
    ∀ fuel i, uniqueNameLoop names base fuel i < i + fuel →
      candName base (uniqueNameLoop names base fuel i) ∉ names := by
  intro fuel
  induction fuel with
  | zero => intro i h; rw [uniqueNameLoop] at h; omega
  | succ f ih =>
    intro i h
    rw [uniqueNameLoop] at h ⊢
    by_cases hm : candName base i ∈ names
    · simp only [hm, if_true] at h ⊢
      exact ih (i + 1) (by omega)
    · simpa only [hm, if_false] using hm

/-- With fuel `names.length + 1` the loop cannot exhaust its fuel: the
candidates are pairwise distinct strings, so at most `names.length` of
them can be members of `names`. -/
theorem uniqueNameLoop_lt (names : List String) (base : String) (i : Nat) :
    uniqueNameLoop names base (names.length + 1) i < i + (names.length + 1) := by
  set fuel := names.length + 1 with hfuel
  rcases Nat.lt_or_ge (uniqueNameLoop names base fuel i) (i + fuel) with h | h
  · exact h
  · exfalso
    have hle := uniqueNameLoop_le names base fuel i
    have heq : uniqueNameLoop names base fuel i = i + fuel := le_antisymm hle h
    have hall : ∀ j, i ≤ j → j < i + fuel → candName base j ∈ names := by
      intro j hij hj
      exact uniqueNameLoop_mem_below names base fuel i j hij (by omega)
    have hsub : (Finset.Ico i (i + fuel)).image (candName base) ⊆ names.toFinset := by
      intro x hx
      simp only [Finset.mem_image, Finset.mem_Ico] at hx
      rcases hx with ⟨j, ⟨hij, hj⟩, rfl⟩
      exact List.mem_toFinset.mpr (hall j hij hj)
    have hcard : ((Finset.Ico i (i + fuel)).image (candName base)).card = fuel := by
      rw [Finset.card_image_of_injective _ (candName_injective base)]
      simp
    have hle2 := Finset.card_le_card hsub
    have := List.toFinset_card_le names
    omega

/-- The value of ensureUniqueName is never a member of the existing names. -/
theorem ensureUniqueName_notMem (names : List String) (base : String) :
    ensureUniqueName names base ∉ names := by
  rw [ensureUniqueName]
  by_cases h : base ∈ names
  · simp only [h, if_true]
    exact uniqueNameLoop_notMem_of_lt names base _ 2 (uniqueNameLoop_lt names base 2)
  · simpa only [h, if_false] using h

theorem ensureUniqueName_of_notMem (names : List String) (base : String)
    (h : base ∉ names) : ensureUniqueName names base = base := by
  simp [ensureUniqueName, h]

/-- The loop returns the least free index at or above its start. -/
theorem uniqueNameLoop_eq_of_least (names : List String) (base : String)
    (fuel i r : Nat) (hir : i ≤ r) (hrf : r ≤ i + fuel)
    (hfree : candName base r ∉ names)
    (hbusy : ∀ j, i ≤ j → j < r → candName base j ∈ names) :
    uniqueNameLoop names base fuel i = r := by
  induction fuel generalizing i with
  | zero => simp [uniqueNameLoop]; omega
  | succ f ih =>
    rw [uniqueNameLoop]
    rcases Nat.eq_or_lt_of_le hir with rfl | hlt
    · simp [hfree]
    · have hmem : candName base i ∈ names := hbusy i le_rfl hlt
      simp only [hmem, if_true]
      exact ih (i + 1) hlt (by omega) (fun j hj hj2 => hbusy j (by omega) hj2)

theorem inferLanguageFromFilename_ne_empty (name : String) :
    inferLanguageFromFilename name ≠ "" := by
  rw [inferLanguageFromFilename]
  by_cases h : name.toLower.trim = "dockerfile"
  · simp [h]
  · simp only [h, if_false, jsOr]
    by_cases h2 : extMap (extOf name.toLower.trim) = "" <;> simp [h2]

/-! ### Frame lemmas -/

theorem syncDiffModel_frame (s : Session) :
    (syncDiffModel s).tabs = s.tabs ∧ (syncDiffModel s).activeId = s.activeId ∧
      (syncDiffModel s).compare = s.compare ∧
      (syncDiffModel s).settings = s.settings := by
  unfold syncDiffModel
  cases hb : s.diffEditor <;>
    cases ha : activeTab s <;>
      cases hc : s.compare.model <;> simp [hb, ha, hc]

theorem setActiveTab_frame (s : Session) (id : String) :
    (setActiveTab s id).tabs = s.tabs ∧
      (setActiveTab s id).compare = s.compare ∧
      (setActiveTab s id).settings = s.settings := by
  unfold setActiveTab
  cases hf : s.tabs.find? (fun t => t.id == id) with
  | none => simp
  | some u =>
    by_cases hm : s.view.mode = "diff"
    · simp only [hm, if_true]
      have h1 := syncDiffModel_frame { s with activeId := some id }
      exact ⟨h1.1, h1.2.2.1, h1.2.2.2⟩
    · simp [hm]

theorem setActiveTab_activeId_of_mem (s : Session) (id : String)
    (h : ∃ x ∈ s.tabs, x.id = id) :
    (setActiveTab s id).activeId = some id := by
  unfold setActiveTab
  have hs : (s.tabs.find? (fun t => t.id == id)).isSome := by
    rw [List.find?_isSome]
    obtain ⟨x, hx, hid⟩ := h
    exact ⟨x, hx, by simp [hid]⟩
  cases hf : s.tabs.find? (fun t => t.id == id) with
  | none => rw [hf] at hs; simp at hs
  | some u =>
    by_cases hm : s.view.mode = "diff"
    · simp only [hm, if_true]
      have h1 := syncDiffModel_frame { s with activeId := some id }
      exact h1.2.1
    · simp [hm]

/-- Claim C10: for an id that belongs to no open document, closeTab is a
complete no-op — the session (tab collection, active pointer, dirty flags
and buffers, compare state, view mode) is returned unchanged and no
buffer model is disposed. -/
theorem closeTab_unknown_id_noop (s : Session) (id newId : String)
    (h : ∀ t ∈ s.tabs, t.id ≠ id) : closeTab s id newId = (s, []) := by
  unfold closeTab
  have hidx : s.tabs.findIdx? (fun t => t.id == id) = none := by
    rw [List.findIdx?_eq_none_iff]
    intro t ht
    simp [h t ht]
  rw [hidx]

theorem closeTab_unknown_id_noop_witness :
    (∀ t ∈ (newTab initSession "t1").tabs, t.id ≠ "zzz") ∧
      closeTab (newTab initSession "t1") "zzz" "t2" = (newTab initSession "t1", []) :=
  ⟨by decide, closeTab_unknown_id_noop (newTab initSession "t1") "zzz" "t2" (by decide)⟩

/-- Claim C3 counterexample: a save attempt whose createWritable succeeds
and whose write then raises leaves the function through the exception path
without ever invoking close — refuting the claim that close is invoked on
every exit path after a successful open. -/
theorem writeTabToHandle_write_error_skips_close_cex :
    ((writeTabToHandle { autosave := false, trimTrailing := false }
        { id := "a", name := "f.txt", language := "plaintext", content := "x",
          handle := some { hname := "f.txt" }, dirty := true } true
        { queryOk := true, queryResult := .granted, createOk := true,
          writeOk := false, closeOk := true }).1 = .error ())
    ∧ ((writeTabToHandle { autosave := false, trimTrailing := false }
        { id := "a", name := "f.txt", language := "plaintext", content := "x",
          handle := some { hname := "f.txt" }, dirty := true } true
        { queryOk := true, queryResult := .granted, createOk := true,
          writeOk := false, closeOk := true }).2.2.opened = true)
    ∧ ((writeTabToHandle { autosave := false, trimTrailing := false }
        { id := "a", name := "f.txt", language := "plaintext", content := "x",
          handle := some { hname := "f.txt" }, dirty := true } true
        { queryOk := true, queryResult := .granted, createOk := true,
          writeOk := false, closeOk := true }).2.2.closeInvoked = false) :=
  ⟨rfl, rfl, rfl⟩

/-- Claim C3 amended: close is invoked exactly on the runs in which the
stream was opened and the subsequent write succeeded; when the write
raises, the exception propagates before close (the source has no
try/finally around the writable). -/
theorem writeTabToHandle_close_iff (st : Settings) (t : Tab)
    (promptPermission : Bool) (env : WriteEnv) :
    (writeTabToHandle st t promptPermission env).2.2.closeInvoked
      = ((writeTabToHandle st t promptPermission env).2.2.opened && env.writeOk) := by
  unfold writeTabToHandle
  cases hh : t.handle.isNone <;>
    cases hq : env.queryOk <;>
      cases hqr : env.queryResult <;>
        cases hc : env.createOk <;>
          cases hw : env.writeOk <;>
            cases hcl : env.closeOk <;>
              cases hp : promptPermission <;>
                simp [hh, hq, hqr, hc, hw, hcl, hp]

/-! ### Tab closing (C6, C10) -/

theorem findIdx?_pred_spec (l : List Tab) (p : Tab → Bool) :
    ∀ (i idx : Nat) (h : idx < l.length),
      (∀ (j : Nat) (hj : j < l.length), (p (l.get ⟨j, hj⟩) = true ↔ j = idx)) →
      List.findIdx? p l i = some (i + idx) := by
  induction l with
  | nil => intro i idx h; simp at h
  | cons a tl ih =>
    intro i idx h hp
    rw [List.findIdx?_cons]
    cases idx with
    | zero =>
      have ha : p a = true := (hp 0 (by simp)).mpr rfl
      simp [ha]
    | succ j =>
      have ha : p a = false := by
        have h0 := hp 0 (by simp)
        simp only [List.get] at h0
        cases hpa : p a
        · rfl
        · exact absurd (h0.mp hpa) (by omega)
      simp only [ha, Bool.false_eq_true, if_false]
      have hj : j < tl.length := by simp at h; omega
      have := ih (i + 1) j hj (fun k hk => by
        have h2 := hp (k + 1) (by simp; omega)
        simpa using h2)
      rw [this]
      congr 1
      omega

theorem findIdx?_id_of_nodup (l : List Tab) (idx : Nat) (h : idx < l.length)
    (hn : (l.map (·.id)).Nodup) :
    l.findIdx? (fun t => t.id == (l.get ⟨idx, h⟩).id) = some idx := by
  have inj := List.inj_on_of_nodup_map hn
  have hnd : l.Nodup := List.Nodup.of_map _ hn
  have := findIdx?_pred_spec l (fun t => t.id == (l.get ⟨idx, h⟩).id) 0 idx h (by
    intro j hj
    simp only [beq_iff_eq]
    constructor
    · intro hid
      have hel : l.get ⟨j, hj⟩ = l.get ⟨idx, h⟩ :=
        inj (List.get_mem l j hj) (List.get_mem l idx h) hid
      have h2 := (List.Nodup.get_inj_iff hnd).mp hel
      exact congrArg Fin.val h2
    · rintro rfl; rfl)
  simpa using this

theorem newTab_spec (s : Session) (nid : String) :
    (newTab s nid).tabs = s.tabs ++ [createdTab s nid newTabArgs] ∧
      (newTab s nid).activeId = some nid := by
  constructor
  · exact (setActiveTab_frame
      { (createTab s nid newTabArgs).1 with
          activeId := some (createTab s nid newTabArgs).2.id }
      (createTab s nid newTabArgs).2.id).1
  · exact setActiveTab_activeId_of_mem _ _
      ⟨createdTab s nid newTabArgs, by simp [createTab], rfl⟩

theorem createdTab_empty_name (s : Session) (nid : String) (hs : s.tabs = []) :
    (createdTab s nid newTabArgs).name = "untitled" ∧
      (createdTab s nid newTabArgs).dirty = false := by
  refine ⟨?_, rfl⟩
  show ensureUniqueName (s.tabs.map (·.name)) (jsOr "untitled" "untitled") = _
  rw [hs]
  rfl

/-- Claim C6: closing the only open document leaves exactly one open,
untitled, clean document which is active; closing never empties the
session; and when the active document is closed, the document originally
to its right (or, for the rightmost, the new rightmost) becomes active. -/
theorem closeTab_invariants :
    (∀ (s : Session) (t : Tab) (newId : String), s.tabs = [t] →
        (closeTab s t.id newId).1.tabs.map (fun u => (u.name, u.dirty))
            = [("untitled", false)] ∧
          (closeTab s t.id newId).1.activeId = some newId)
    ∧ (∀ (s : Session) (id newId : String),
        s.tabs ≠ [] → (closeTab s id newId).1.tabs ≠ [])
    ∧ (∀ (s : Session) (idx : Nat) (newId : String) (h : idx < s.tabs.length)
        (hn : (s.tabs.map (·.id)).Nodup)
        (hact : s.activeId = some ((s.tabs.get ⟨idx, h⟩).id))
        (hne : s.tabs.eraseIdx idx ≠ []),
        (closeTab s ((s.tabs.get ⟨idx, h⟩).id) newId).1.activeId =
          if h2 : idx + 1 < s.tabs.length
          then some ((s.tabs.get ⟨idx + 1, h2⟩).id)
          else some (((s.tabs.eraseIdx idx).getLast hne).id)) := by
  refine ⟨?_, ?_, ?_⟩
  · intro s t newId hs
    have hfind : s.tabs.findIdx? (fun u => u.id == t.id) = some 0 := by
      rw [hs, List.findIdx?_cons]
      simp
    have hE : (s.tabs.eraseIdx 0).isEmpty = true := by rw [hs]; rfl
    have hrw : (closeTab s t.id newId).1
        = newTab { s with tabs := s.tabs.eraseIdx 0 } newId := by
      unfold closeTab
      simp only [hfind]
      rw [if_pos hE]
    have hempty : s.tabs.eraseIdx 0 = [] := by rw [hs]; rfl
    obtain ⟨htabs, hactive⟩ :=
      newTab_spec { s with tabs := s.tabs.eraseIdx 0 } newId
    obtain ⟨hname, hdirty⟩ :=
      createdTab_empty_name { s with tabs := s.tabs.eraseIdx 0 } newId hempty
    rw [hrw]
    refine ⟨?_, hactive⟩
    rw [htabs]
    have hproj : ({ s with tabs := s.tabs.eraseIdx 0 } : Session).tabs = [] := hempty
    rw [hproj]
    simp only [List.nil_append, List.map_cons, List.map_nil, hname, hdirty]
  · intro s id newId hs
    unfold closeTab
    cases hfind : s.tabs.findIdx? (fun t => t.id == id) with
    | none => exact hs
    | some idx =>
      dsimp only
      by_cases hE : (s.tabs.eraseIdx idx).isEmpty = true
      · rw [if_pos hE]
        show (newTab { s with tabs := s.tabs.eraseIdx idx } newId).tabs ≠ []
        rw [(newTab_spec _ _).1]
        simp
      · rw [if_neg hE]
        have hne : s.tabs.eraseIdx idx ≠ [] := by
          simpa [List.isEmpty_iff] using hE
        by_cases ha : s.activeId = some id
        · rw [if_pos ha]
          cases hg : (s.tabs.eraseIdx idx).get?
              (min idx ((s.tabs.eraseIdx idx).length - 1)) with
          | none => exact hne
          | some next =>
            show (setActiveTab { s with tabs := s.tabs.eraseIdx idx } next.id).tabs ≠ []
            rw [(setActiveTab_frame { s with tabs := s.tabs.eraseIdx idx } next.id).1]
            exact hne
        · rw [if_neg ha]
          exact hne
  · intro s idx newId h hn hact hne
    unfold closeTab
    simp only [findIdx?_id_of_nodup s.tabs idx h hn]
    have hE : ¬((s.tabs.eraseIdx idx).isEmpty = true) := by
      simpa [List.isEmpty_iff] using hne
    rw [if_neg hE, if_pos hact]
    have hlen : (s.tabs.eraseIdx idx).length = s.tabs.length - 1 := by
      rw [List.length_eraseIdx]
      simp [h]
    have hpos : 0 < (s.tabs.eraseIdx idx).length := List.length_pos.mpr hne
    by_cases h2 : idx + 1 < s.tabs.length
    · have hidx2 : idx < (s.tabs.eraseIdx idx).length := by omega
      have hmin : min idx ((s.tabs.eraseIdx idx).length - 1) = idx := by omega
      rw [hmin, List.get?_eq_get hidx2]
      have hgeq : (s.tabs.eraseIdx idx).get ⟨idx, hidx2⟩ = s.tabs.get ⟨idx + 1, h2⟩ := by
        simp only [List.get_eq_getElem]
        rw [List.getElem_eraseIdx_of_ge]
        exact le_rfl
      rw [setActiveTab_activeId_of_mem _ _
        ⟨(s.tabs.eraseIdx idx).get ⟨idx, hidx2⟩, List.get_mem _ _ _, rfl⟩]
      rw [dif_pos h2, hgeq]
    · have hmin : min idx ((s.tabs.eraseIdx idx).length - 1)
          = (s.tabs.eraseIdx idx).length - 1 := by omega
      have hidx2 : (s.tabs.eraseIdx idx).length - 1 < (s.tabs.eraseIdx idx).length := by
        omega
      rw [hmin, List.get?_eq_get hidx2]
      rw [setActiveTab_activeId_of_mem _ _
        ⟨(s.tabs.eraseIdx idx).get ⟨_, hidx2⟩, List.get_mem _ _ _, rfl⟩]
      rw [dif_neg h2]
      have hlast : (s.tabs.eraseIdx idx).getLast hne
          = (s.tabs.eraseIdx idx).get ⟨(s.tabs.eraseIdx idx).length - 1, hidx2⟩ := by
        rw [List.getLast_eq_getElem]
        simp [List.get_eq_getElem]
      rw [hlast]

theorem closeTab_invariants_witness :
    ((newTab initSession "a").tabs
        = [createdTab { initSession with tabs := [] } "a" newTabArgs] ∧
      (closeTab (newTab initSession "a")
          (createdTab { initSession with tabs := [] } "a" newTabArgs).id
          "b").1.tabs.map (fun u => (u.name, u.dirty)) = [("untitled", false)]) := by
  constructor
  · decide
  · exact (closeTab_invariants.1 (newTab initSession "a")
      (createdTab { initSession with tabs := [] } "a" newTabArgs) "b"
      (by decide)).1

/-! ### Name pattern (C7) -/

theorem expectedNames_length (base : String) (n : Nat) :
    (expectedNames base n).length = n := by
  simp [expectedNames]

theorem mem_expectedNames (base : String) (k : Nat) (x : String) :
    x ∈ expectedNames base k ↔
      (1 ≤ k ∧ x = base) ∨ ∃ j, 2 ≤ j ∧ j ≤ k ∧ x = candName base j := by
  simp only [expectedNames, List.mem_map, List.mem_range]
  constructor
  · rintro ⟨j, hj, rfl⟩
    by_cases h0 : j = 0
    · subst h0
      left
      exact ⟨by omega, by simp⟩
    · right
      exact ⟨j + 1, by omega, by omega, by simp [h0]⟩
  · rintro (⟨hk, rfl⟩ | ⟨j, h2, hjk, rfl⟩)
    · exact ⟨0, by omega, by simp⟩
    · refine ⟨j - 1, by omega, ?_⟩
      have hne : ¬(j - 1 = 0) := by omega
      have hj1 : j - 1 + 1 = j := by omega
      simp [hne, hj1]

theorem expectedNames_succ (base : String) (k : Nat) (hk : 1 ≤ k) :
    expectedNames base (k + 1) = expectedNames base k ++ [candName base (k + 1)] := by
  have hne : ¬(k = 0) := by omega
  simp [expectedNames, List.range_succ, hne]

theorem ensureUniqueName_expectedNames (base : String) (k : Nat) (hk : 1 ≤ k) :
    ensureUniqueName (expectedNames base k) base = candName base (k + 1) := by
  have hmem : base ∈ expectedNames base k := by
    rw [mem_expectedNames]
    left
    exact ⟨hk, rfl⟩
  rw [ensureUniqueName, if_pos hmem]
  congr 1
  apply uniqueNameLoop_eq_of_least
  · omega
  · rw [expectedNames_length]
    omega
  · rw [mem_expectedNames]
    rintro (⟨_, hEq⟩ | ⟨j, h2, hjk, hEq⟩)
    · exact candName_ne_base base (k + 1) hEq
    · have := candName_injective base hEq
      omega
  · intro j h2 hj
    rw [mem_expectedNames]
    right
    exact ⟨j, h2, by omega, rfl⟩

theorem createMany_names (base : String) (hb : base ≠ "") :
    ∀ n, (createMany base n).tabs.map (·.name) = expectedNames base n := by
  have hjs : jsOr base "untitled" = base := by simp [jsOr, hb]
  intro n
  induction n with
  | zero => rfl
  | succ k ih =>
    have hstep : (createMany base (k + 1)).tabs
        = (createMany base k).tabs ++
          [createdTab (createMany base k) (natDecimal k)
            { aname := base, content := "", language := "", handle := none }] := by
      rfl
    rw [hstep, List.map_append, ih]
    have hnm : (createdTab (createMany base k) (natDecimal k)
        { aname := base, content := "", language := "", handle := none }).name
        = ensureUniqueName (expectedNames base k) base := by
      show ensureUniqueName ((createMany base k).tabs.map (·.name)) (jsOr base "untitled")
          = ensureUniqueName (expectedNames base k) base
      rw [ih, hjs]
    rw [List.map_cons, List.map_nil, hnm]
    cases k with
    | zero =>
      rw [ensureUniqueName_of_notMem _ _ (by simp [expectedNames])]
      rfl
    | succ k2 =>
      rw [ensureUniqueName_expectedNames base (k2 + 1) (by omega),
        expectedNames_succ base (k2 + 1) (by omega)]

theorem expectedNames_nodup (base : String) (n : Nat) :
    (expectedNames base n).Nodup := by
  rw [expectedNames]
  apply List.Nodup.map_on ?_ (List.nodup_range n)
  intro x hx y hy hEq
  simp only [List.mem_range] at hx hy
  by_cases hx0 : x = 0 <;> by_cases hy0 : y = 0
  · omega
  · subst hx0
    rw [if_pos rfl, if_neg hy0] at hEq
    exact absurd hEq.symm (candName_ne_base base (y + 1))
  · subst hy0
    rw [if_neg hx0, if_pos rfl] at hEq
    exact absurd hEq (candName_ne_base base (x + 1))
  · rw [if_neg hx0, if_neg hy0] at hEq
    have := candName_injective base hEq
    omega

/-- Claim C7: repeated createTab calls with the same base name yield the
pairwise distinct names base, base 2, base 3, …, and createTab always
preserves pairwise distinctness of the open document names. -/
theorem createDocument_name_pattern :
    (∀ (base : String) (n : Nat), base ≠ "" →
        (createMany base n).tabs.map (·.name) = expectedNames base n ∧
          ((createMany base n).tabs.map (·.name)).Nodup)
    ∧ (∀ (s : Session) (id : String) (a : CreateArgs),
        (s.tabs.map (·.name)).Nodup →
          (((createTab s id a).1).tabs.map (·.name)).Nodup) := by
  constructor
  · intro base n hb
    refine ⟨createMany_names base hb n, ?_⟩
    rw [createMany_names base hb n]
    exact expectedNames_nodup base n
  · intro s id a hn
    show ((s.tabs ++ [createdTab s id a]).map (·.name)).Nodup
    rw [List.map_append, List.map_cons, List.map_nil]
    rw [List.Perm.nodup_iff (List.perm_append_singleton _ _)]
    refine List.nodup_cons.mpr ⟨?_, hn⟩
    show ensureUniqueName (s.tabs.map (·.name)) (jsOr a.aname "untitled") ∉ _
    exact ensureUniqueName_notMem _ _

theorem createDocument_name_pattern_witness :
    ((createMany "doc" 3).tabs.map (·.name) = expectedNames "doc" 3 ∧
        ((createMany "doc" 3).tabs.map (·.name)).Nodup) ∧
      expectedNames "doc" 3 = ["doc", "doc 2", "doc 3"] ∧
      (((createTab (newTab initSession "a") "b"
          { aname := "untitled", content := "", language := "", handle := none }).1).tabs.map
            (·.name)).Nodup :=
  ⟨createDocument_name_pattern.1 "doc" 3 (by decide), by decide,
    createDocument_name_pattern.2 (newTab initSession "a") "b"
      { aname := "untitled", content := "", language := "", handle := none } (by decide)⟩

/-! ### Save coordinator lemmas -/

theorem updateTab_map_id (s : Session) (v : Tab) :
    (updateTab s v).tabs.map (·.id) = s.tabs.map (·.id) := by
  unfold updateTab
  rw [List.map_map]
  apply List.map_congr_left
  intro x _
  by_cases h : x.id = v.id <;> simp [h]

theorem updateTab_activeId (s : Session) (v : Tab) :
    (updateTab s v).activeId = s.activeId := rfl

theorem updateTab_dirty_of_id (s : Session) (v : Tab) :
    ∀ u ∈ (updateTab s v).tabs, u.id = v.id → u = v := by
  intro u hu hid
  unfold updateTab at hu
  simp only [List.mem_map] at hu
  obtain ⟨x, _, hx⟩ := hu
  by_cases h : x.id == v.id
  · rw [if_pos h] at hx
    exact hx.symm
  · rw [if_neg h] at hx
    subst hx
    exact absurd (by simp [hid]) h

theorem updateTab_map_proj_of_nodup {α : Type} (s : Session) (v t : Tab)
    (f : Tab → α) (hn : (s.tabs.map (·.id)).Nodup) (hmem : t ∈ s.tabs)
    (hid : v.id = t.id) (hproj : f v = f t) :
    (updateTab s v).tabs.map f = s.tabs.map f := by
  unfold updateTab
  rw [List.map_map]
  apply List.map_congr_left
  intro x hx
  simp only [Function.comp_apply]
  by_cases h : x.id = v.id
  · have hxt : x = t := List.inj_on_of_nodup_map hn hx hmem (by rw [h, hid])
    rw [hxt, if_pos (show (t.id == v.id) = true by simp [hid]), hproj]
  · simp [h]

theorem updateTab_self (s : Session) (t : Tab)
    (hn : (s.tabs.map (·.id)).Nodup) (hmem : t ∈ s.tabs) :
    updateTab s t = s := by
  unfold updateTab
  have : s.tabs.map (fun x => if x.id == t.id then t else x) = s.tabs := by
    conv_rhs => rw [← List.map_id s.tabs]
    apply List.map_congr_left
    intro x hx
    by_cases h : x.id = t.id
    · have hxt : x = t := List.inj_on_of_nodup_map hn hx hmem h
      subst hxt
      simp
    · simp [h]
  rw [this]

theorem activeTab_mem (s : Session) (t : Tab) (h : activeTab s = some t) :
    t ∈ s.tabs ∧ s.activeId = some t.id := by
  unfold activeTab at h
  have hm := List.mem_of_find?_eq_some h
  have hp := List.find?_some h
  have hp2 : some t.id = s.activeId := by simpa using hp
  exact ⟨hm, hp2.symm⟩

theorem writeTabToHandle_tab_eq (st : Settings) (t : Tab) (pp : Bool)
    (env : WriteEnv) :
    (writeTabToHandle st t pp env).2.1
      = if (writeTabToHandle st t pp env).1 = .ok true
        then { t with dirty := false } else t := by
  unfold writeTabToHandle
  cases hh : t.handle.isNone <;>
    cases hq : env.queryOk <;>
      cases hqr : env.queryResult <;>
        cases hc : env.createOk <;>
          cases hw : env.writeOk <;>
            cases hcl : env.closeOk <;>
              cases hp : pp <;>
                simp [hh, hq, hqr, hc, hw, hcl, hp]

theorem writeTabToHandle_ok_wroteOk (st : Settings) (t : Tab) (pp : Bool)
    (env : WriteEnv) :
    (writeTabToHandle st t pp env).1 ≠ .ok true ∨
      (writeTabToHandle st t pp env).2.2.wroteOk = true := by
  unfold writeTabToHandle
  cases hh : t.handle.isNone <;>
    cases hq : env.queryOk <;>
      cases hqr : env.queryResult <;>
        cases hc : env.createOk <;>
          cases hw : env.writeOk <;>
            cases hcl : env.closeOk <;>
              cases hp : pp <;>
                simp [hh, hq, hqr, hc, hw, hcl, hp]

theorem writeTabToHandle_ok_true (st : Settings) (t : Tab) (pp : Bool)
    (env : WriteEnv) (h : (writeTabToHandle st t pp env).1 = .ok true) :
    (writeTabToHandle st t pp env).2.1 = { t with dirty := false } ∧
      (writeTabToHandle st t pp env).2.2.wroteOk = true := by
  refine ⟨?_, ?_⟩
  · rw [writeTabToHandle_tab_eq, if_pos h]
  · rcases writeTabToHandle_ok_wroteOk st t pp env with h2 | h2
    · exact absurd h h2
    · exact h2

theorem writeTabToHandle_not_ok_true (st : Settings) (t : Tab) (pp : Bool)
    (env : WriteEnv) (h : (writeTabToHandle st t pp env).1 ≠ .ok true) :
    (writeTabToHandle st t pp env).2.1 = t := by
  rw [writeTabToHandle_tab_eq, if_neg h]

theorem fallbackDownload_frame (s : Session) (t : Tab) (env : SaveEnv) :
    (fallbackDownload s t env).1.activeId = s.activeId ∧
      (fallbackDownload s t env).1.tabs.map (·.id) = s.tabs.map (·.id) ∧
      (fallbackDownload s t env).1.settings = s.settings := by
  unfold fallbackDownload
  cases hpn : env.promptName with
  | none => exact ⟨rfl, rfl, rfl⟩
  | some nm =>
    dsimp only
    by_cases hnm : nm = ""
    · rw [if_pos hnm]
      exact ⟨rfl, rfl, rfl⟩
    · rw [if_neg hnm]
      exact ⟨rfl, updateTab_map_id _ _, rfl⟩

theorem saveAsPicked_frame (s : Session) (t1 : Tab) (env : SaveEnv) :
    (saveAsPicked s t1 env).1.activeId = s.activeId ∧
      (saveAsPicked s t1 env).1.tabs.map (·.id) = s.tabs.map (·.id) ∧
      (saveAsPicked s t1 env).1.settings = s.settings := by
  unfold saveAsPicked
  generalize writeTabToHandle (updateTab s t1).settings t1 true env.writeEnv = res
  rcases res with ⟨r, t2, fx⟩
  rcases r with e | b
  · dsimp only
    have hf := fallbackDownload_frame (updateTab (updateTab s t1) t2) t2 env
    refine ⟨hf.1, ?_, hf.2.2⟩
    rw [hf.2.1, updateTab_map_id, updateTab_map_id]
  · cases b
    · exact ⟨rfl, by rw [updateTab_map_id, updateTab_map_id], rfl⟩
    · exact ⟨rfl, by rw [updateTab_map_id, updateTab_map_id], rfl⟩

theorem saveAsActive_frame (s : Session) (env : SaveEnv) :
    (saveAsActive s env).1.activeId = s.activeId ∧
      (saveAsActive s env).1.tabs.map (·.id) = s.tabs.map (·.id) ∧
      (saveAsActive s env).1.settings = s.settings := by
  unfold saveAsActive
  cases ha : activeTab s with
  | none => exact ⟨rfl, rfl, rfl⟩
  | some t =>
    dsimp only
    by_cases hp : env.pickerAvailable = true
    · rw [if_pos hp]
      cases hpr : env.pickerResult with
      | picked hdl => exact saveAsPicked_frame s _ env
      | aborted => exact ⟨rfl, rfl, rfl⟩
      | failed => exact fallbackDownload_frame s t env
    · rw [if_neg hp]
      exact fallbackDownload_frame s t env

theorem saveActive_frame (s : Session) (env : SaveEnv) :
    (saveActive s env).1.activeId = s.activeId ∧
      (saveActive s env).1.tabs.map (·.id) = s.tabs.map (·.id) ∧
      (saveActive s env).1.settings = s.settings := by
  unfold saveActive
  cases ha : activeTab s with
  | none => exact ⟨rfl, rfl, rfl⟩
  | some t =>
    dsimp only
    by_cases hh : t.handle.isSome = true
    · rw [if_pos hh]
      generalize writeTabToHandle s.settings t true env.writeEnv = res
      rcases res with ⟨r, t1, fx⟩
      rcases r with e | b
      · exact ⟨rfl, updateTab_map_id _ _, rfl⟩
      · cases b
        · exact ⟨rfl, updateTab_map_id _ _, rfl⟩
        · exact ⟨rfl, updateTab_map_id _ _, rfl⟩
    · rw [if_neg hh]
      exact saveAsActive_frame s env

/-! ### Dirty-flag case analysis -/

theorem mem_updateTab_of_id (s : Session) (v t0 : Tab)
    (hmem : t0 ∈ s.tabs) (hid : v.id = t0.id) :
    v ∈ (updateTab s v).tabs := by
  unfold updateTab
  rw [List.mem_map]
  refine ⟨t0, hmem, ?_⟩
  rw [if_pos (show (t0.id == v.id) = true by simp [hid])]

theorem updateTab_nodup (s : Session) (v : Tab)
    (hn : (s.tabs.map (·.id)).Nodup) :
    ((updateTab s v).tabs.map (·.id)).Nodup := by
  rw [updateTab_map_id]
  exact hn

theorem fallbackDownload_outcome (s : Session) (t : Tab) (env : SaveEnv) :
    (fallbackDownload s t env).2 = .canceled ∨
      (fallbackDownload s t env).2 = .downloaded := by
  unfold fallbackDownload
  cases hpn : env.promptName with
  | none => exact Or.inl rfl
  | some nm =>
    dsimp only
    by_cases hnm : nm = ""
    · rw [if_pos hnm]
      exact Or.inl rfl
    · rw [if_neg hnm]
      exact Or.inr rfl

theorem fallbackDownload_cases (s : Session) (t : Tab) (env : SaveEnv) :
    ((fallbackDownload s t env).2 = .canceled → (fallbackDownload s t env).1 = s)
    ∧ ((fallbackDownload s t env).2 = .downloaded →
        ∀ u ∈ (fallbackDownload s t env).1.tabs, u.id = t.id → u.dirty = false) := by
  unfold fallbackDownload
  cases hpn : env.promptName with
  | none => exact ⟨fun _ => rfl, fun h => nomatch h⟩
  | some nm =>
    dsimp only
    by_cases hnm : nm = ""
    · rw [if_pos hnm]
      exact ⟨fun _ => rfl, fun h => nomatch h⟩
    · rw [if_neg hnm]
      constructor
      · intro h
        exact nomatch h
      · intro _ u hu hid
        have h2 := updateTab_dirty_of_id s _ u hu hid
        rw [h2]

theorem saveAsPicked_outcome (s : Session) (t1 : Tab) (env : SaveEnv) :
    (saveAsPicked s t1 env).2 = .savedAs ∨
      (saveAsPicked s t1 env).2 = .saveAsNeedsPermission ∨
      (saveAsPicked s t1 env).2 = .canceled ∨
      (saveAsPicked s t1 env).2 = .downloaded := by
  unfold saveAsPicked
  generalize writeTabToHandle (updateTab s t1).settings t1 true env.writeEnv = res
  rcases res with ⟨r, t2, fx⟩
  rcases r with e | b
  · dsimp only
    rcases fallbackDownload_outcome (updateTab (updateTab s t1) t2) t2 env with h | h
    · exact Or.inr (Or.inr (Or.inl h))
    · exact Or.inr (Or.inr (Or.inr h))
  · cases b
    · exact Or.inr (Or.inl rfl)
    · exact Or.inl rfl

theorem saveAsPicked_cases (s : Session) (t1 : Tab) (env : SaveEnv)
    (hn : (s.tabs.map (·.id)).Nodup)
    (t0 : Tab) (hmem : t0 ∈ s.tabs) (hid : t1.id = t0.id)
    (hdirty : t1.dirty = t0.dirty) :
    (((saveAsPicked s t1 env).2 = .saveAsNeedsPermission
        ∨ (saveAsPicked s t1 env).2 = .canceled)
      → (saveAsPicked s t1 env).1.tabs.map (fun u => (u.id, u.dirty))
          = s.tabs.map (fun u => (u.id, u.dirty)))
    ∧ (((saveAsPicked s t1 env).2 = .savedAs
        ∨ (saveAsPicked s t1 env).2 = .downloaded)
      → ∀ u ∈ (saveAsPicked s t1 env).1.tabs, u.id = t0.id → u.dirty = false) := by
  have hproj1 : (updateTab s t1).tabs.map (fun u => (u.id, u.dirty))
      = s.tabs.map (fun u => (u.id, u.dirty)) :=
    updateTab_map_proj_of_nodup s t1 t0 _ hn hmem hid (by rw [hid, hdirty])
  have hmem1 : t1 ∈ (updateTab s t1).tabs := mem_updateTab_of_id s t1 t0 hmem hid
  have hn1 : ((updateTab s t1).tabs.map (·.id)).Nodup := updateTab_nodup s t1 hn
  unfold saveAsPicked
  generalize hw : writeTabToHandle (updateTab s t1).settings t1 true env.writeEnv = res
  rcases res with ⟨r, t2, fx⟩
  have hres1 : (writeTabToHandle (updateTab s t1).settings t1 true env.writeEnv).1 = r := by
    rw [hw]
  have hres2 : (writeTabToHandle (updateTab s t1).settings t1 true env.writeEnv).2.1 = t2 := by
    rw [hw]
  rcases r with e | b
  · -- write threw: fall through to download fallback
    have ht2 : t2 = t1 := by
      rw [← hres2]
      exact writeTabToHandle_not_ok_true _ _ _ _ (by rw [hres1]; exact fun hc => nomatch hc)
    dsimp only
    have hproj2 : (updateTab (updateTab s t1) t2).tabs.map (fun u => (u.id, u.dirty))
        = s.tabs.map (fun u => (u.id, u.dirty)) := by
      rw [ht2, updateTab_map_proj_of_nodup (updateTab s t1) t1 t1 _ hn1 hmem1 rfl rfl,
        hproj1]
    have hfb := fallbackDownload_cases (updateTab (updateTab s t1) t2) t2 env
    constructor
    · rintro (h | h)
      · rcases fallbackDownload_outcome (updateTab (updateTab s t1) t2) t2 env with
          ho | ho <;> rw [h] at ho <;> exact nomatch ho
      · rw [hfb.1 h, hproj2]
    · rintro (h | h)
      · rcases fallbackDownload_outcome (updateTab (updateTab s t1) t2) t2 env with
          ho | ho <;> rw [h] at ho <;> exact nomatch ho
      · intro u hu hidu
        exact hfb.2 h u hu (by rw [hidu, ← hid, ht2])
  · cases b
    · -- ok false: Save As needs permission
      dsimp only
      have ht2 : t2 = t1 := by
        rw [← hres2]
        exact writeTabToHandle_not_ok_true _ _ _ _
          (by rw [hres1]; exact fun hc => nomatch (Except.ok.inj hc))
      refine ⟨fun _ => ?_, fun h => ?_⟩
      · rw [ht2, updateTab_map_proj_of_nodup (updateTab s t1) t1 t1 _ hn1 hmem1 rfl rfl,
          hproj1]
      · rcases h with h | h
        · exact nomatch h
        · exact nomatch h
    · -- ok true: Saved As, dirty cleared
      dsimp only
      have ht2 : t2 = { t1 with dirty := false } := by
        rw [← hres2]
        exact (writeTabToHandle_ok_true _ _ _ _ (by rw [hres1])).1
      constructor
      · intro h
        rcases h with h | h
        · exact nomatch h
        · exact nomatch h
      · intro _ u hu hidu
        have h2 := updateTab_dirty_of_id (updateTab s t1) t2 u hu
          (by rw [hidu, ← hid, ht2])
        rw [h2, ht2]

theorem saveActive_cases (s : Session) (env : SaveEnv) (t : Tab)
    (ht : activeTab s = some t) (hn : (s.tabs.map (·.id)).Nodup) :
    (((saveActive s env).2 = .needsPermission ∨ (saveActive s env).2 = .saveFailed
        ∨ (saveActive s env).2 = .canceled
        ∨ (saveActive s env).2 = .saveAsNeedsPermission)
      → (saveActive s env).1.tabs.map (fun u => (u.id, u.dirty))
          = s.tabs.map (fun u => (u.id, u.dirty)))
    ∧ (((saveActive s env).2 = .saved ∨ (saveActive s env).2 = .savedAs
        ∨ (saveActive s env).2 = .downloaded)
      → ∀ u ∈ (saveActive s env).1.tabs, u.id = t.id → u.dirty = false) := by
  have hmem := (activeTab_mem s t ht).1
  unfold saveActive
  rw [ht]
  dsimp only
  by_cases hh : t.handle.isSome = true
  · rw [if_pos hh]
    generalize hw : writeTabToHandle s.settings t true env.writeEnv = res
    rcases res with ⟨r, t1, fx⟩
    have hres1 : (writeTabToHandle s.settings t true env.writeEnv).1 = r := by rw [hw]
    have hres2 : (writeTabToHandle s.settings t true env.writeEnv).2.1 = t1 := by rw [hw]
    rcases r with e | b
    · dsimp only
      have ht1 : t1 = t := by
        rw [← hres2]
        exact writeTabToHandle_not_ok_true _ _ _ _
          (by rw [hres1]; exact fun hc => nomatch hc)
      refine ⟨fun _ => ?_, fun h => ?_⟩
      · rw [ht1, updateTab_self s t hn hmem]
      · rcases h with h | h | h
        all_goals exact nomatch h
    · cases b
      · dsimp only
        have ht1 : t1 = t := by
          rw [← hres2]
          exact writeTabToHandle_not_ok_true _ _ _ _
            (by rw [hres1]; exact fun hc => nomatch (Except.ok.inj hc))
        refine ⟨fun _ => ?_, fun h => ?_⟩
        · rw [ht1, updateTab_self s t hn hmem]
        · rcases h with h | h | h
          all_goals exact nomatch h
      · dsimp only
        have ht1 : t1 = { t with dirty := false } := by
          rw [← hres2]
          exact (writeTabToHandle_ok_true _ _ _ _ (by rw [hres1])).1
        constructor
        · intro h
          rcases h with h | h | h | h
          all_goals exact nomatch h
        · intro _ u hu hidu
          have h2 := updateTab_dirty_of_id s t1 u hu (by rw [hidu, ht1])
          rw [h2, ht1]
  · rw [if_neg hh]
    unfold saveAsActive
    rw [ht]
    dsimp only
    by_cases hp : env.pickerAvailable = true
    · rw [if_pos hp]
      cases hpr : env.pickerResult with
      | picked hdl =>
        dsimp only
        have hsp := saveAsPicked_cases s
          ({ t with handle := some hdl, name := if hdl.hname != "" then hdl.hname else t.name })
          env hn t hmem rfl rfl
        have hso := saveAsPicked_outcome s
          ({ t with handle := some hdl, name := if hdl.hname != "" then hdl.hname else t.name })
          env
        constructor
        · rintro (h | h | h | h)
          · rcases hso with h2 | h2 | h2 | h2 <;> rw [h] at h2 <;> exact nomatch h2
          · rcases hso with h2 | h2 | h2 | h2 <;> rw [h] at h2 <;> exact nomatch h2
          · exact hsp.1 (Or.inr h)
          · exact hsp.1 (Or.inl h)
        · rintro (h | h | h)
          · rcases hso with h2 | h2 | h2 | h2 <;> rw [h] at h2 <;> exact nomatch h2
          · exact hsp.2 (Or.inl h)
          · exact hsp.2 (Or.inr h)
      | aborted =>
        dsimp only
        constructor
        · rintro (h | h | h | h)
          · exact nomatch h
          · exact nomatch h
          · rfl
          · exact nomatch h
        · rintro (h | h | h)
          · exact nomatch h
          · exact nomatch h
          · exact nomatch h
      | failed =>
        dsimp only
        have hfb := fallbackDownload_cases s t env
        constructor
        · rintro (h | h | h | h)
          · rcases fallbackDownload_outcome s t env with ho | ho <;>
              rw [h] at ho <;> exact nomatch ho
          · rcases fallbackDownload_outcome s t env with ho | ho <;>
              rw [h] at ho <;> exact nomatch ho
          · rw [hfb.1 h]
          · rcases fallbackDownload_outcome s t env with ho | ho <;>
              rw [h] at ho <;> exact nomatch ho
        · rintro (h | h | h)
          · rcases fallbackDownload_outcome s t env with ho | ho <;>
              rw [h] at ho <;> exact nomatch ho
          · rcases fallbackDownload_outcome s t env with ho | ho <;>
              rw [h] at ho <;> exact nomatch ho
          · exact hfb.2 h
    · rw [if_neg hp]
      have hfb := fallbackDownload_cases s t env
      constructor
      · rintro (h | h | h | h)
        · rcases fallbackDownload_outcome s t env with ho | ho <;>
            rw [h] at ho <;> exact nomatch ho
        · rcases fallbackDownload_outcome s t env with ho | ho <;>
            rw [h] at ho <;> exact nomatch ho
        · rw [hfb.1 h]
        · rcases fallbackDownload_outcome s t env with ho | ho <;>
            rw [h] at ho <;> exact nomatch ho
      · rintro (h | h | h)
        · rcases fallbackDownload_outcome s t env with ho | ho <;>
            rw [h] at ho <;> exact nomatch ho
        · rcases fallbackDownload_outcome s t env with ho | ho <;>
            rw [h] at ho <;> exact nomatch ho
        · exact hfb.2 h

/-! ### saveAll (C2) -/

theorem saveAllLoop_spec (envs : String → SaveEnv) :
    ∀ (ids : List String) (s : Session),
      (saveAllLoop s ids envs).2.map Prod.fst = ids ∧
      (saveAllLoop s ids envs).1.tabs.map (·.id) = s.tabs.map (·.id) ∧
      (saveAllLoop s ids envs).1.activeId
        = (match ids.getLast? with
           | some x => some x
           | none => s.activeId) := by
  intro ids
  induction ids with
  | nil => intro s; exact ⟨rfl, rfl, rfl⟩
  | cons id rest ih =>
    intro s
    obtain ⟨ih1, ih2, ih3⟩ := ih (saveActive { s with activeId := some id } (envs id)).1
    refine ⟨?_, ?_, ?_⟩
    · show ((id, (saveActive { s with activeId := some id } (envs id)).2) ::
        (saveAllLoop (saveActive { s with activeId := some id } (envs id)).1 rest
          envs).2).map Prod.fst = id :: rest
      rw [List.map_cons, ih1]
    · show (saveAllLoop (saveActive { s with activeId := some id } (envs id)).1 rest
        envs).1.tabs.map (·.id) = s.tabs.map (·.id)
      rw [ih2, (saveActive_frame _ _).2.1]
    · show (saveAllLoop (saveActive { s with activeId := some id } (envs id)).1 rest
        envs).1.activeId = _
      rw [ih3]
      cases rest with
      | nil =>
        show (saveActive { s with activeId := some id } (envs id)).1.activeId = some id
        rw [(saveActive_frame _ _).1]
      | cons b tl =>
        rw [List.getLast?_cons_cons]
        cases hgl : (b :: tl).getLast? with
        | none =>
          have h4 := List.getLast?_eq_getLast_of_ne_nil (l := b :: tl) (by simp)
          rw [h4] at hgl
          exact nomatch hgl
        | some x => rfl

/-- Claim C2 counterexample: a session whose active document is the first
of two tabs; every save is canceled by the user, yet after saveAll the
second (last) tab is active, not the originally active first tab. -/
theorem saveAll_not_restoring_active_cex :
    (saveAll
        { tabs := [{ id := "A", name := "a.txt", language := "plaintext",
                     content := "x", handle := none, dirty := true },
                   { id := "B", name := "b.txt", language := "plaintext",
                     content := "y", handle := none, dirty := true }],
          activeId := some "A",
          settings := { autosave := false, trimTrailing := false },
          compare := { cname := "—", language := "plaintext", model := none,
                       handle := none },
          view := { mode := "split", layout := "split" },
          scrollLock := { enabled := false, mode := "sync", lineDelta := 0 },
          diffEditor := false, diffEditorEl := true, diffMaster := none }
        (fun _ =>
          { writeEnv := { queryOk := true, queryResult := .granted,
                          createOk := true, writeOk := true, closeOk := true },
            pickerAvailable := true, pickerResult := .aborted,
            promptName := none })).1.activeId = some "B"
      ∧ ("B" : String) ≠ "A" := by
  constructor
  · rfl
  · decide

/-- Claim C2 amended: saveAll runs the single-document save once per open
document in tab order (whatever the individual outcomes, so one failure
never aborts the rest), and afterwards the LAST document in tab order is
active — the originally active document is restored only if it happened to
be last, because the loop reuses state.activeId and the final
setActiveTab(state.activeId) therefore targets the last tab. -/
theorem saveAll_order_and_last_active (s : Session) (envs : String → SaveEnv) :
    (saveAll s envs).2.map Prod.fst = s.tabs.map (·.id) ∧
      (s.tabs ≠ [] →
        ∃ lastId, (s.tabs.map (·.id)).getLast? = some lastId ∧
          (saveAll s envs).1.activeId = some lastId) := by
  obtain ⟨h1, h2, h3⟩ := saveAllLoop_spec envs (s.tabs.map (·.id)) s
  unfold saveAll
  cases ha : (saveAllLoop s (s.tabs.map (·.id)) envs).1.activeId with
  | none =>
    dsimp only
    refine ⟨h1, fun hne => ?_⟩
    have hids : s.tabs.map (·.id) ≠ [] := by simpa using hne
    have hx := List.getLast?_eq_getLast_of_ne_nil hids
    rw [hx] at h3
    dsimp only at h3
    rw [ha] at h3
    exact nomatch h3
  | some i =>
    dsimp only
    refine ⟨h1, fun hne => ?_⟩
    have hids : s.tabs.map (·.id) ≠ [] := by simpa using hne
    have hx := List.getLast?_eq_getLast_of_ne_nil hids
    rw [hx] at h3
    dsimp only at h3
    rw [ha] at h3
    have hix : i = (s.tabs.map (·.id)).getLast hids := Option.some.inj h3
    refine ⟨i, by rw [hx, hix], ?_⟩
    have hmm : i ∈ s.tabs.map (·.id) := by
      rw [hix]
      exact List.getLast_mem hids
    rw [← h2] at hmm
    rw [List.mem_map] at hmm
    obtain ⟨u, hu, huid⟩ := hmm
    exact setActiveTab_activeId_of_mem _ _ ⟨u, hu, huid⟩

theorem saveAll_order_and_last_active_witness :
    ((saveAll (newTab initSession "w1")
          (fun _ =>
            { writeEnv := { queryOk := true, queryResult := .granted,
                            createOk := true, writeOk := true, closeOk := true },
              pickerAvailable := true, pickerResult := .aborted,
              promptName := none })).2.map Prod.fst
        = (newTab initSession "w1").tabs.map (·.id))
      ∧ ∃ lastId,
          ((newTab initSession "w1").tabs.map (·.id)).getLast? = some lastId ∧
            (saveAll (newTab initSession "w1")
                (fun _ =>
                  { writeEnv := { queryOk := true, queryResult := .granted,
                                  createOk := true, writeOk := true, closeOk := true },
                    pickerAvailable := true, pickerResult := .aborted,
                    promptName := none })).1.activeId = some lastId :=
  ⟨(saveAll_order_and_last_active (newTab initSession "w1") _).1,
    (saveAll_order_and_last_active (newTab initSession "w1") _).2 (by decide)⟩

/-! ### Dirty lifecycle (C1) -/

/-- Claim C1: a document is created clean; a buffer mutation marks the
active document dirty; writeTabToHandle clears dirty exactly on the run
that returns confirmed success and leaves the tab untouched otherwise
(exceptions and permission refusals included); saveActive in all of its
failure outcomes (needs-permission, write error, cancellation) leaves
every document id with exactly the dirty value it had, and in its success
outcomes (saved, saved-as, downloaded) leaves the active document clean;
an autosave firing whose write did not succeed leaves the session
untouched. -/
theorem dirty_lifecycle :
    (∀ (s : Session) (id : String) (a : CreateArgs),
        ((createTab s id a).2).dirty = false)
    ∧ (∀ (s : Session) (c : String) (t : Tab), activeTab s = some t →
        ∀ u ∈ (onDidChangeModelContent s c).tabs, u.id = t.id → u.dirty = true)
    ∧ (∀ (st : Settings) (t : Tab) (pp : Bool) (env : WriteEnv),
        ((writeTabToHandle st t pp env).1 = .ok true →
          (writeTabToHandle st t pp env).2.1 = { t with dirty := false })
        ∧ ((writeTabToHandle st t pp env).1 ≠ .ok true →
          (writeTabToHandle st t pp env).2.1 = t))
    ∧ (∀ (s : Session) (env : SaveEnv) (t : Tab),
        activeTab s = some t → (s.tabs.map (·.id)).Nodup →
        (((saveActive s env).2 = .needsPermission
            ∨ (saveActive s env).2 = .saveFailed
            ∨ (saveActive s env).2 = .canceled
            ∨ (saveActive s env).2 = .saveAsNeedsPermission)
          → (saveActive s env).1.tabs.map (fun u => (u.id, u.dirty))
              = s.tabs.map (fun u => (u.id, u.dirty)))
        ∧ (((saveActive s env).2 = .saved ∨ (saveActive s env).2 = .savedAs
            ∨ (saveActive s env).2 = .downloaded)
          → ∀ u ∈ (saveActive s env).1.tabs, u.id = t.id → u.dirty = false))
    ∧ (∀ (cid : String) (busy : Bool) (s : Session) (env : WriteEnv),
        (s.tabs.map (·.id)).Nodup →
        (autosaveFire cid busy s env).2.wroteOk = false →
        (autosaveFire cid busy s env).1 = s) := by
  refine ⟨fun _ _ _ => rfl, ?_, ?_, ?_, ?_⟩
  · intro s c t ht u hu hid
    unfold onDidChangeModelContent at hu
    rw [ht] at hu
    dsimp only at hu
    have := updateTab_dirty_of_id s _ u hu hid
    rw [this]
  · intro st t pp env
    exact ⟨fun h => (writeTabToHandle_ok_true st t pp env h).1,
      fun h => writeTabToHandle_not_ok_true st t pp env h⟩
  · intro s env t ht hn
    exact saveActive_cases s env t ht hn
  · intro cid busy s env hn hw
    unfold autosaveFire at hw ⊢
    by_cases hb : busy = true
    · rw [if_pos hb]
    · rw [if_neg hb] at hw ⊢
      cases ha : activeTab s with
      | none => rfl
      | some cur =>
        rw [ha] at hw
        dsimp only at hw ⊢
        by_cases hc1 : (cur.id != cid) = true
        · rw [if_pos hc1]
        · rw [if_neg hc1] at hw ⊢
          by_cases hc2 : (!cur.dirty) = true
          · rw [if_pos hc2]
          · rw [if_neg hc2] at hw ⊢
            have hne : (writeTabToHandle s.settings cur false env).1 ≠ .ok true := by
              intro hok
              have := (writeTabToHandle_ok_true s.settings cur false env hok).2
              rw [this] at hw
              exact nomatch hw
            have ht1 := writeTabToHandle_not_ok_true s.settings cur false env hne
            rw [ht1]
            exact updateTab_self s cur hn (activeTab_mem s cur ha).1

theorem dirty_lifecycle_witness :
    ((createTab initSession "w"
          { aname := "f.txt", content := "", language := "", handle := none }).2.dirty
        = false)
      ∧ (∀ u ∈ (onDidChangeModelContent (newTab initSession "e1") "abc").tabs,
          u.id = (createdTab { initSession with tabs := [] } "e1" newTabArgs).id →
            u.dirty = true)
      ∧ ((writeTabToHandle { autosave := false, trimTrailing := false }
            { id := "a", name := "f.txt", language := "plaintext", content := "x",
              handle := some { hname := "f.txt" }, dirty := true } true
            { queryOk := true, queryResult := .granted, createOk := true,
              writeOk := false, closeOk := true }).1 ≠ .ok true →
          (writeTabToHandle { autosave := false, trimTrailing := false }
            { id := "a", name := "f.txt", language := "plaintext", content := "x",
              handle := some { hname := "f.txt" }, dirty := true } true
            { queryOk := true, queryResult := .granted, createOk := true,
              writeOk := false, closeOk := true }).2.1
            = { id := "a", name := "f.txt", language := "plaintext", content := "x",
                handle := some { hname := "f.txt" }, dirty := true }) := by
  refine ⟨dirty_lifecycle.1 initSession "w" _, ?_, ?_⟩
  · intro u hu hid
    exact dirty_lifecycle.2.1 (newTab initSession "e1") "abc"
      (createdTab { initSession with tabs := [] } "e1" newTabArgs)
      (by decide) u hu hid
  · exact (dirty_lifecycle.2.2.1 { autosave := false, trimTrailing := false }
      { id := "a", name := "f.txt", language := "plaintext", content := "x",
        handle := some { hname := "f.txt" }, dirty := true } true
      { queryOk := true, queryResult := .granted, createOk := true,
        writeOk := false, closeOk := true }).2

/-! ### Autosave (C4) -/

theorem writeTabToHandle_promptPath (st : Settings) (t : Tab) (env : WriteEnv) :
    (writeTabToHandle st t false env).2.2.promptPath = false := by
  unfold writeTabToHandle
  cases hh : t.handle.isNone <;>
    cases hq : env.queryOk <;>
      cases hqr : env.queryResult <;>
        cases hc : env.createOk <;>
          cases hw : env.writeOk <;>
            cases hcl : env.closeOk <;>
              simp [hh, hq, hqr, hc, hw, hcl]

theorem writeTabToHandle_noPrompt_query (st : Settings) (t : Tab)
    (env : WriteEnv) :
    (writeTabToHandle st t false env).2.2.writeInvoked = false ∨
      (env.queryOk = true ∧ env.queryResult = .granted) := by
  unfold writeTabToHandle
  cases hh : t.handle.isNone <;>
    cases hq : env.queryOk <;>
      cases hqr : env.queryResult <;>
        cases hc : env.createOk <;>
          cases hw : env.writeOk <;>
            cases hcl : env.closeOk <;>
              simp [hh, hq, hqr, hc, hw, hcl]

/-- Claim C4: an autosave firing never takes the interactive may-prompt
path and performs the write only when the handle reported permission
already granted to queryPermission; the timer is armed only when autosave
is enabled and the active document is file-bound; and the firing is a
no-op when another autosave is in flight, or when the captured document is
no longer active or no longer dirty at fire time. -/
theorem autosave_no_prompt_and_guards :
    (∀ (cid : String) (busy : Bool) (s : Session) (env : WriteEnv),
        (autosaveFire cid busy s env).2.promptPath = false)
    ∧ (∀ (cid : String) (busy : Bool) (s : Session) (env : WriteEnv),
        (autosaveFire cid busy s env).2.writeInvoked = true →
          env.queryOk = true ∧ env.queryResult = .granted)
    ∧ (∀ (s : Session) (cid : String), autosaveActiveSoon s = some cid →
        s.settings.autosave = true ∧
          ∃ t, activeTab s = some t ∧ t.handle.isSome = true ∧ cid = t.id)
    ∧ (∀ s : Session, s.settings.autosave = false → autosaveActiveSoon s = none)
    ∧ (∀ (cid : String) (s : Session) (env : WriteEnv),
        autosaveFire cid true s env = (s, {}))
    ∧ (∀ (cid : String) (busy : Bool) (s : Session) (env : WriteEnv) (cur : Tab),
        activeTab s = some cur → (cur.id ≠ cid ∨ cur.dirty = false) →
        autosaveFire cid busy s env = (s, {})) := by
  refine ⟨?_, ?_, ?_, ?_, ?_, ?_⟩
  · intro cid busy s env
    unfold autosaveFire
    by_cases hb : busy = true
    · rw [if_pos hb]
    · rw [if_neg hb]
      cases ha : activeTab s with
      | none => rfl
      | some cur =>
        dsimp only
        by_cases hc1 : (cur.id != cid) = true
        · rw [if_pos hc1]
        · rw [if_neg hc1]
          by_cases hc2 : (!cur.dirty) = true
          · rw [if_pos hc2]
          · rw [if_neg hc2]
            exact writeTabToHandle_promptPath s.settings cur env
  · intro cid busy s env hwi
    unfold autosaveFire at hwi
    by_cases hb : busy = true
    · rw [if_pos hb] at hwi
      exact nomatch hwi
    · rw [if_neg hb] at hwi
      cases ha : activeTab s with
      | none => rw [ha] at hwi; exact nomatch hwi
      | some cur =>
        rw [ha] at hwi
        dsimp only at hwi
        by_cases hc1 : (cur.id != cid) = true
        · rw [if_pos hc1] at hwi; exact nomatch hwi
        · rw [if_neg hc1] at hwi
          by_cases hc2 : (!cur.dirty) = true
          · rw [if_pos hc2] at hwi; exact nomatch hwi
          · rw [if_neg hc2] at hwi
            rcases writeTabToHandle_noPrompt_query s.settings cur env with h | h
            · rw [h] at hwi
              exact nomatch hwi
            · exact h
  · intro s cid hs
    unfold autosaveActiveSoon at hs
    by_cases hen : (!s.settings.autosave) = true
    · rw [if_pos hen] at hs
      exact nomatch hs
    · rw [if_neg hen] at hs
      refine ⟨by simpa using hen, ?_⟩
      cases ha : activeTab s with
      | none => rw [ha] at hs; exact nomatch hs
      | some t =>
        rw [ha] at hs
        dsimp only at hs
        by_cases hh : t.handle.isNone = true
        · rw [if_pos hh] at hs
          exact nomatch hs
        · rw [if_neg hh] at hs
          refine ⟨t, rfl, ?_, (Option.some.inj hs).symm⟩
          cases hht : t.handle with
          | none => rw [hht] at hh; exact absurd rfl hh
          | some hd => rfl
  · intro s hoff
    unfold autosaveActiveSoon
    rw [if_pos (by rw [hoff]; rfl)]
  · intro cid s env
    unfold autosaveFire
    rw [if_pos rfl]
  · intro cid busy s env cur ha hguard
    unfold autosaveFire
    by_cases hb : busy = true
    · rw [if_pos hb]
    · rw [if_neg hb, ha]
      dsimp only
      rcases hguard with hg | hg
      · rw [if_pos (by simpa using hg)]
      · by_cases hc1 : (cur.id != cid) = true
        · rw [if_pos hc1]
        · rw [if_neg hc1, if_pos (by rw [hg]; rfl)]

theorem autosave_no_prompt_and_guards_witness :
    ((autosaveFire "A" false
        { tabs := [{ id := "A", name := "f.txt", language := "plaintext",
                     content := "x", handle := some { hname := "f.txt" },
                     dirty := true }],
          activeId := some "A",
          settings := { autosave := true, trimTrailing := false },
          compare := { cname := "—", language := "plaintext", model := none,
                       handle := none },
          view := { mode := "split", layout := "split" },
          scrollLock := { enabled := false, mode := "sync", lineDelta := 0 },
          diffEditor := false, diffEditorEl := true, diffMaster := none }
        { queryOk := true, queryResult := .granted, createOk := true,
          writeOk := true, closeOk := true }).2.promptPath = false)
      ∧ (({ queryOk := true, queryResult := .granted, createOk := true,
            writeOk := true, closeOk := true } : WriteEnv).queryOk = true ∧
          ({ queryOk := true, queryResult := .granted, createOk := true,
             writeOk := true, closeOk := true } : WriteEnv).queryResult = .granted)
      ∧ (autosaveFire "A" true initSession
          { queryOk := true, queryResult := .granted, createOk := true,
            writeOk := true, closeOk := true } = (initSession, {})) := by
  refine ⟨autosave_no_prompt_and_guards.1 "A" false _ _, ?_, ?_⟩
  · exact autosave_no_prompt_and_guards.2.1 "A" false
      { tabs := [{ id := "A", name := "f.txt", language := "plaintext",
                   content := "x", handle := some { hname := "f.txt" },
                   dirty := true }],
        activeId := some "A",
        settings := { autosave := true, trimTrailing := false },
        compare := { cname := "—", language := "plaintext", model := none,
                     handle := none },
        view := { mode := "split", layout := "split" },
        scrollLock := { enabled := false, mode := "sync", lineDelta := 0 },
        diffEditor := false, diffEditorEl := true, diffMaster := none }
      { queryOk := true, queryResult := .granted, createOk := true,
        writeOk := true, closeOk := true } (by decide)
  · exact autosave_no_prompt_and_guards.2.2.2.2.1 "A" initSession
      { queryOk := true, queryResult := .granted, createOk := true,
        writeOk := true, closeOk := true }

/-! ### Scroll lock (C8) -/

/-- Claim C8: under the offset policy the delta is captured as the
difference of the two panes current pixel-derived top lines at that
instant; every performed forcing write drives the compare pane to the top
pixel of `clamp(masterTopLine + delta, 1, compareLineCount)` (stated for a
line-aligned master position, where the sub-line remainder is zero), so
the compare top line becomes exactly that clamped value; and under an
engaged lock outside diff mode the write is skipped exactly when the
computed target is within one pixel of the current position. -/
theorem scroll_lock_offset_policy :
    (∀ master compare : Pane,
        recomputeScrollLockDelta "offset" master compare
          = (topLine compare : Int) - (topLine master : Int))
    ∧ (∀ (lock : ScrollLock) (vm : String) (master compare : Pane)
        (maxLine : Nat) (v : Int),
        master.lineHeight > 0 → compare.lineHeight > 0 → 1 ≤ maxLine →
        master.scrollTop % master.lineHeight = 0 →
        syncCompareScrollFromMaster lock vm master compare maxLine = some v →
        v = (syncCompareLine lock master maxLine - 1) * (compare.lineHeight : Int)
          ∧ v / (compare.lineHeight : Int) + 1 = syncCompareLine lock master maxLine
          ∧ (lock.mode ≠ "sync" →
              syncCompareLine lock master maxLine
                = clampI ((topLine master : Int) + lock.lineDelta) 1 (maxLine : Int)))
    ∧ (∀ (lock : ScrollLock) (vm : String) (master compare : Pane) (maxLine : Nat),
        lock.enabled = true → vm ≠ "diff" →
        (syncCompareScrollFromMaster lock vm master compare maxLine = none ↔
          ((compare.scrollTop : Int)
            - syncCompareTarget lock master compare maxLine).natAbs ≤ 1)) := by
  refine ⟨?_, ?_, ?_⟩
  · intro master compare
    rfl
  · intro lock vm master compare maxLine v hM hS hmax halign hsome
    unfold syncCompareScrollFromMaster at hsome
    by_cases hg : (!lock.enabled || vm == "diff") = true
    · rw [if_pos hg] at hsome
      exact nomatch hsome
    · rw [if_neg hg] at hsome
      by_cases hgt : ((compare.scrollTop : Int)
          - syncCompareTarget lock master compare maxLine).natAbs > 1
      · rw [if_pos hgt] at hsome
        have hv : v = syncCompareTarget lock master compare maxLine :=
          (Option.some.inj hsome).symm
        have hcomm : master.scrollTop / master.lineHeight * master.lineHeight
            = master.lineHeight * (master.scrollTop / master.lineHeight) :=
          Nat.mul_comm _ _
        have hdm := Nat.div_add_mod master.scrollTop master.lineHeight
        have hzero : master.scrollTop
            - master.scrollTop / master.lineHeight * master.lineHeight = 0 := by
          omega
        have hround : roundHalfUp
            ((master.scrollTop
                - master.scrollTop / master.lineHeight * master.lineHeight)
              * compare.lineHeight) master.lineHeight = 0 := by
          rw [hzero, Nat.zero_mul]
          unfold roundHalfUp
          have h1 : 2 * 0 + master.lineHeight = master.lineHeight := by omega
          rw [h1]
          exact Nat.div_eq_of_lt (by omega)
        have htarget : syncCompareTarget lock master compare maxLine
            = (syncCompareLine lock master maxLine - 1) * (compare.lineHeight : Int) := by
          unfold syncCompareTarget
          rw [hround]
          simp
        have hL : 1 ≤ syncCompareLine lock master maxLine := by
          unfold syncCompareLine clampI
          exact le_max_left _ _
        refine ⟨by rw [hv, htarget], ?_, ?_⟩
        · rw [hv, htarget]
          have hne : (compare.lineHeight : Int) ≠ 0 := by
            exact_mod_cast hS.ne.symm
          rw [Int.mul_ediv_cancel _ hne]
          omega
        · intro hmo
          unfold syncCompareLine
          rw [if_neg hmo]
      · rw [if_neg hgt] at hsome
        exact nomatch hsome
  · intro lock vm master compare maxLine hen hvm
    unfold syncCompareScrollFromMaster
    rw [if_neg (by simp [hen, hvm])]
    by_cases hgt : ((compare.scrollTop : Int)
        - syncCompareTarget lock master compare maxLine).natAbs > 1
    · rw [if_pos hgt]
      constructor
      · intro h
        exact nomatch h
      · intro h
        omega
    · rw [if_neg hgt]
      constructor
      · intro _
        omega
      · intro _
        rfl

theorem scroll_lock_offset_policy_witness :
    (recomputeScrollLockDelta "offset" { scrollTop := 162, lineHeight := 18 }
        { scrollTop := 432, lineHeight := 18 } = 15)
      ∧ (syncCompareScrollFromMaster
            { enabled := true, mode := "offset", lineDelta := 15 } "split"
            { scrollTop := 342, lineHeight := 18 }
            { scrollTop := 432, lineHeight := 18 } 40 = some 612)
      ∧ ((612 : Int) = (syncCompareLine
            { enabled := true, mode := "offset", lineDelta := 15 }
            { scrollTop := 342, lineHeight := 18 } 40 - 1) * (18 : Int)
          ∧ (612 : Int) / (18 : Int) + 1
              = syncCompareLine
                  { enabled := true, mode := "offset", lineDelta := 15 }
                  { scrollTop := 342, lineHeight := 18 } 40
          ∧ (({ enabled := true, mode := "offset", lineDelta := 15 }
                : ScrollLock).mode ≠ "sync" →
              syncCompareLine
                  { enabled := true, mode := "offset", lineDelta := 15 }
                  { scrollTop := 342, lineHeight := 18 } 40
                = clampI ((topLine { scrollTop := 342, lineHeight := 18 } : Int)
                    + ({ enabled := true, mode := "offset", lineDelta := 15 }
                        : ScrollLock).lineDelta) 1 (40 : Int))) := by
  refine ⟨?_, ?_, ?_⟩
  · have h := scroll_lock_offset_policy.1 { scrollTop := 162, lineHeight := 18 }
      { scrollTop := 432, lineHeight := 18 }
    rw [h]
    decide
  · decide
  · exact scroll_lock_offset_policy.2.1
      { enabled := true, mode := "offset", lineDelta := 15 } "split"
      { scrollTop := 342, lineHeight := 18 }
      { scrollTop := 432, lineHeight := 18 } 40 612
      (by decide) (by decide) (by decide) (by decide) (by decide)

/-! ### Diff rebinding (C9) -/

theorem ensureDiffEditor_frame (s : Session) :
    (ensureDiffEditor s).tabs = s.tabs ∧ (ensureDiffEditor s).activeId = s.activeId ∧
      (ensureDiffEditor s).compare = s.compare ∧
      (ensureDiffEditor s).diffMaster = s.diffMaster := by
  unfold ensureDiffEditor
  split
  · exact ⟨rfl, rfl, rfl, rfl⟩
  · exact ⟨rfl, rfl, rfl, rfl⟩

theorem ensureDiffEditor_on (s : Session)
    (h : s.diffEditor = true ∨ s.diffEditorEl = true) :
    (ensureDiffEditor s).diffEditor = true := by
  unfold ensureDiffEditor
  cases hd : s.diffEditor with
  | true =>
    rw [if_pos (by simp [hd])]
    exact hd
  | false =>
    rcases h with h | h
    · rw [hd] at h
      exact nomatch h
    · rw [if_neg (by simp [hd, h])]

theorem applySplitLayoutClass_frame (s : Session) :
    (applySplitLayoutClass s).tabs = s.tabs ∧
      (applySplitLayoutClass s).activeId = s.activeId ∧
      (applySplitLayoutClass s).compare = s.compare ∧
      (applySplitLayoutClass s).diffMaster = s.diffMaster := by
  unfold applySplitLayoutClass
  split
  · exact ⟨rfl, rfl, rfl, rfl⟩
  · exact ⟨rfl, rfl, rfl, rfl⟩

theorem syncDiffModel_master (s : Session) (hde : s.diffEditor = true)
    (t : Tab) (ht : activeTab s = some t) (m : String)
    (hm : s.compare.model = some m) :
    (syncDiffModel s).diffMaster = some t.id := by
  unfold syncDiffModel
  rw [if_neg (by simp [hde]), ht, hm]

/-- Claim C9: entering diff mode rebinds the diff pair original side to
the currently active document (the modified side is the session-global
compare model), and activating another document while in diff mode
re-binds the pair to the newly active document; neither rebinding mutates
any document buffer or the compare buffer. -/
theorem diff_rebinding :
    (∀ (s : Session) (t : Tab), activeTab s = some t →
        (s.diffEditor = true ∨ s.diffEditorEl = true) →
        s.compare.model.isSome = true →
        (setViewMode s "diff").diffMaster = some t.id ∧
          (setViewMode s "diff").tabs = s.tabs ∧
          (setViewMode s "diff").compare = s.compare)
    ∧ (∀ (s : Session) (id : String) (u : Tab),
        s.view.mode = "diff" → s.diffEditor = true →
        s.compare.model.isSome = true →
        s.tabs.find? (fun t => t.id == id) = some u →
        (setActiveTab s id).diffMaster = some id ∧
          (setActiveTab s id).tabs = s.tabs ∧
          (setActiveTab s id).compare = s.compare) := by
  constructor
  · intro s t ht hde hcm
    unfold setViewMode
    rw [if_pos rfl]
    cases hcm2 : s.compare.model with
    | none =>
      rw [hcm2] at hcm
      exact nomatch hcm
    | some m =>
      have hfr := ensureDiffEditor_frame
        { s with view := { s.view with mode := "diff" },
                 scrollLock := { s.scrollLock with enabled := false } }
      have hde1 : (ensureDiffEditor
          { s with view := { s.view with mode := "diff" },
                   scrollLock := { s.scrollLock with enabled := false } }).diffEditor
          = true :=
        ensureDiffEditor_on _ hde
      have hat : activeTab (ensureDiffEditor
          { s with view := { s.view with mode := "diff" },
                   scrollLock := { s.scrollLock with enabled := false } }) = some t := by
        unfold activeTab
        rw [hfr.1, hfr.2.1]
        exact ht
      have hcm3 : (ensureDiffEditor
          { s with view := { s.view with mode := "diff" },
                   scrollLock := { s.scrollLock with enabled := false } }).compare.model
          = some m := by
        rw [hfr.2.2.1]
        exact hcm2
      have hsync := syncDiffModel_master _ hde1 t hat m hcm3
      have hsf := syncDiffModel_frame (ensureDiffEditor
        { s with view := { s.view with mode := "diff" },
                 scrollLock := { s.scrollLock with enabled := false } })
      have haf := applySplitLayoutClass_frame (syncDiffModel (ensureDiffEditor
        { s with view := { s.view with mode := "diff" },
                 scrollLock := { s.scrollLock with enabled := false } }))
      refine ⟨?_, ?_, ?_⟩
      · rw [haf.2.2.2, hsync]
      · rw [haf.1, hsf.1, hfr.1]
      · rw [haf.2.2.1, hsf.2.2.1, hfr.2.2.1]
  · intro s id u hm hde hcm hfind
    unfold setActiveTab
    rw [hfind]
    dsimp only
    rw [if_pos (show ({ s with activeId := some id } : Session).view.mode = "diff"
      from hm)]
    cases hcm2 : s.compare.model with
    | none =>
      rw [hcm2] at hcm
      exact nomatch hcm
    | some m =>
      have hat : activeTab { s with activeId := some id } = some u := hfind
      have hu : u.id = id := by simpa using List.find?_some hfind
      have hsync := syncDiffModel_master { s with activeId := some id } hde u hat m hcm2
      have hsf := syncDiffModel_frame { s with activeId := some id }
      exact ⟨by rw [hsync, hu], hsf.1, hsf.2.2.1⟩

theorem diff_rebinding_witness :
    ((setViewMode
          { tabs := [{ id := "A", name := "a.txt", language := "plaintext",
                       content := "a\nb\nc", handle := none, dirty := false },
                     { id := "B", name := "b.txt", language := "plaintext",
                       content := "second", handle := none, dirty := false }],
            activeId := some "A",
            settings := { autosave := false, trimTrailing := false },
            compare := { cname := "cmp.txt", language := "plaintext",
                         model := some "a\nx\nc", handle := none },
            view := { mode := "split", layout := "split" },
            scrollLock := { enabled := false, mode := "sync", lineDelta := 0 },
            diffEditor := false, diffEditorEl := true, diffMaster := none }
          "diff").diffMaster = some "A")
      ∧ ((setActiveTab
            { tabs := [{ id := "A", name := "a.txt", language := "plaintext",
                         content := "a\nb\nc", handle := none, dirty := false },
                       { id := "B", name := "b.txt", language := "plaintext",
                         content := "second", handle := none, dirty := false }],
              activeId := some "A",
              settings := { autosave := false, trimTrailing := false },
              compare := { cname := "cmp.txt", language := "plaintext",
                           model := some "a\nx\nc", handle := none },
              view := { mode := "diff", layout := "split" },
              scrollLock := { enabled := false, mode := "sync", lineDelta := 0 },
              diffEditor := true, diffEditorEl := true, diffMaster := some "A" }
            "B").diffMaster = some "B") := by
  constructor
  · have h := (diff_rebinding.1
      { tabs := [{ id := "A", name := "a.txt", language := "plaintext",
                   content := "a\nb\nc", handle := none, dirty := false },
                 { id := "B", name := "b.txt", language := "plaintext",
                   content := "second", handle := none, dirty := false }],
        activeId := some "A",
        settings := { autosave := false, trimTrailing := false },
        compare := { cname := "cmp.txt", language := "plaintext",
                     model := some "a\nx\nc", handle := none },
        view := { mode := "split", layout := "split" },
        scrollLock := { enabled := false, mode := "sync", lineDelta := 0 },
        diffEditor := false, diffEditorEl := true, diffMaster := none }
      { id := "A", name := "a.txt", language := "plaintext",
        content := "a\nb\nc", handle := none, dirty := false }
      (by decide) (by decide) (by decide)).1
    exact h
  · have h := (diff_rebinding.2
      { tabs := [{ id := "A", name := "a.txt", language := "plaintext",
                   content := "a\nb\nc", handle := none, dirty := false },
                 { id := "B", name := "b.txt", language := "plaintext",
                   content := "second", handle := none, dirty := false }],
        activeId := some "A",
        settings := { autosave := false, trimTrailing := false },
        compare := { cname := "cmp.txt", language := "plaintext",
                     model := some "a\nx\nc", handle := none },
        view := { mode := "diff", layout := "split" },
        scrollLock := { enabled := false, mode := "sync", lineDelta := 0 },
        diffEditor := true, diffEditorEl := true, diffMaster := some "A" }
      "B"
      { id := "B", name := "b.txt", language := "plaintext",
        content := "second", handle := none, dirty := false }
      (by decide) (by decide) (by decide) (by decide)).1
    exact h

/-! ### Persistence round trip (C5) -/

theorem mem_docsPut (l : List PersistedDoc) (d e : PersistedDoc) :
    e ∈ docsPut l d ↔ e = d ∨ (e ∈ l ∧ e.id ≠ d.id) := by
  unfold docsPut
  by_cases h : l.any (fun x => x.id == d.id) = true
  · rw [if_pos h]
    simp only [List.mem_map]
    constructor
    · rintro ⟨x, hx, hxe⟩
      by_cases hxd : x.id = d.id
      · rw [if_pos (by simp [hxd])] at hxe
        exact Or.inl hxe.symm
      · rw [if_neg (by simp [hxd])] at hxe
        subst hxe
        exact Or.inr ⟨hx, hxd⟩
    · rintro (rfl | ⟨he, hne⟩)
      · obtain ⟨x, hx, hxd⟩ := List.any_eq_true.mp h
        exact ⟨x, hx, by rw [if_pos hxd]⟩
      · exact ⟨e, he, by rw [if_neg (by simp [hne])]⟩
  · rw [if_neg h]
    simp only [List.mem_append, List.mem_singleton]
    constructor
    · rintro (he | rfl)
      · by_cases hne : e.id = d.id
        · exact absurd (List.any_eq_true.mpr ⟨e, he, by simp [hne]⟩) h
        · exact Or.inr ⟨he, hne⟩
      · exact Or.inl rfl
    · rintro (rfl | ⟨he, _⟩)
      · exact Or.inr rfl
      · exact Or.inl he

theorem docsPut_map_id (l : List PersistedDoc) (d : PersistedDoc) :
    (docsPut l d).map (fun x => x.id) = l.map (fun x => x.id)
      ∨ ((docsPut l d).map (fun x => x.id) = l.map (fun x => x.id) ++ [d.id]
          ∧ d.id ∉ l.map (fun x => x.id)) := by
  unfold docsPut
  by_cases h : l.any (fun x => x.id == d.id) = true
  · rw [if_pos h]
    left
    rw [List.map_map]
    refine List.map_congr_left ?_
    intro x hx
    by_cases hxd : x.id = d.id
    · simp [hxd]
    · simp [hxd]
  · rw [if_neg h]
    refine Or.inr ⟨by rw [List.map_append]; rfl, ?_⟩
    intro hmem
    obtain ⟨x, hx, hxd⟩ := List.mem_map.mp hmem
    exact h (List.any_eq_true.mpr ⟨x, hx, by simp [hxd]⟩)

theorem docsPut_nodup_id (l : List PersistedDoc) (d : PersistedDoc)
    (h : (l.map (fun x => x.id)).Nodup) :
    ((docsPut l d).map (fun x => x.id)).Nodup := by
  rcases docsPut_map_id l d with he | ⟨he, hni⟩
  · rw [he]
    exact h
  · rw [he]
    refine List.Nodup.append h (List.nodup_singleton _) ?_
    intro a ha hb
    rw [List.mem_singleton] at hb
    subst hb
    exact hni ha

theorem foldl_docsPut_nodup_id (ds : List PersistedDoc) :
    ∀ acc : List PersistedDoc, (acc.map (fun x => x.id)).Nodup →
      ((ds.foldl docsPut acc).map (fun x => x.id)).Nodup := by
  induction ds with
  | nil =>
    intro acc h
    exact h
  | cons d rest ih =>
    intro acc h
    exact ih (docsPut acc d) (docsPut_nodup_id acc d h)

theorem mem_foldl_docsPut (ds : List PersistedDoc) :
    ∀ (acc : List PersistedDoc) (e : PersistedDoc),
      (ds.map (fun x => x.id)).Nodup →
      (e ∈ ds.foldl docsPut acc ↔
        e ∈ ds ∨ (e ∈ acc ∧ e.id ∉ ds.map (fun x => x.id))) := by
  induction ds with
  | nil =>
    intro acc e _
    simp
  | cons d rest ih =>
    intro acc e hnd
    simp only [List.map_cons, List.nodup_cons] at hnd
    rw [List.foldl_cons, ih (docsPut acc d) e hnd.2]
    constructor
    · rintro (he | ⟨hacc, hni⟩)
      · exact Or.inl (List.mem_cons_of_mem d he)
      · rcases (mem_docsPut acc d e).mp hacc with rfl | ⟨hea, hne⟩
        · exact Or.inl (List.mem_cons_self _ _)
        · refine Or.inr ⟨hea, ?_⟩
          simp only [List.map_cons, List.mem_cons]
          rintro (h1 | h2)
          · exact hne h1
          · exact hni h2
    · rintro (he | ⟨hacc, hni⟩)
      · rcases List.mem_cons.mp he with rfl | he2
        · exact Or.inr ⟨(mem_docsPut acc e e).mpr (Or.inl rfl), hnd.1⟩
        · exact Or.inl he2
      · simp only [List.map_cons, List.mem_cons] at hni
        push_neg at hni
        exact Or.inr ⟨(mem_docsPut acc d e).mpr (Or.inr ⟨hacc, hni.1⟩), hni.2⟩

theorem snapshot_map_id (s : Session) (cloneable : Handle → Bool) :
    (s.tabs.map (snapshotDoc cloneable)).map (fun x => x.id)
      = s.tabs.map (fun t => t.id) := by
  rw [List.map_map]
  rfl

theorem snapshot_map_name (s : Session) (cloneable : Handle → Bool) :
    (s.tabs.map (snapshotDoc cloneable)).map (fun x => x.name)
      = s.tabs.map (fun t => t.name) := by
  rw [List.map_map]
  rfl

theorem persistSession_activeId (s : Session) (cloneable : Handle → Bool)
    (st : Store) : (persistSession s cloneable st).activeId = s.activeId := rfl

theorem mem_persistSession_docs (s : Session) (cloneable : Handle → Bool)
    (st : Store) (hwf : (s.tabs.map (fun t => t.id)).Nodup) (e : PersistedDoc) :
    e ∈ (persistSession s cloneable st).docs
      ↔ e ∈ s.tabs.map (snapshotDoc cloneable) := by
  unfold persistSession
  rw [mem_foldl_docsPut _ _ e (by rw [snapshot_map_id]; exact hwf)]
  constructor
  · rintro (he | ⟨hacc, hni⟩)
    · exact he
    · exfalso
      obtain ⟨hmem, hpred⟩ := List.mem_filter.mp hacc
      exact hni (by simpa using hpred)
  · exact Or.inl

theorem persistSession_nodup_id (s : Session) (cloneable : Handle → Bool)
    (st : Store) (hwf : (s.tabs.map (fun t => t.id)).Nodup)
    (hst : (st.docs.map (fun x => x.id)).Nodup) :
    ((persistSession s cloneable st).docs.map (fun x => x.id)).Nodup := by
  unfold persistSession
  refine foldl_docsPut_nodup_id _ _ ?_
  have hsub : List.Sublist
      ((st.docs.filter (fun d =>
        ((s.tabs.map (snapshotDoc cloneable)).map (fun x => x.id)).contains
          d.id)).map (fun x => x.id))
      (st.docs.map (fun x => x.id)) :=
    (List.filter_sublist _).map _
  exact List.Nodup.sublist hsub hst

theorem nodup_name_of_mem_docs (l m : List PersistedDoc)
    (hsub : ∀ e ∈ l, e ∈ m)
    (hlid : (l.map (fun x => x.id)).Nodup)
    (hmname : (m.map (fun x => x.name)).Nodup) :
    (l.map (fun x => x.name)).Nodup := by
  have hl : l.Nodup := List.Nodup.of_map _ hlid
  refine List.Nodup.map_on ?_ hl
  intro x hx y hy hxy
  exact List.inj_on_of_nodup_map hmname (hsub x hx) (hsub y hy) hxy

theorem loadStep_eq (acc : Session) (d : PersistedDoc)
    (hname : d.name ∉ acc.tabs.map (fun t => t.name)) (hn : d.name ≠ "")
    (hl : d.language ≠ "") (hid : d.id ∉ acc.tabs.map (fun t => t.id)) :
    loadStep acc d = { acc with tabs := acc.tabs ++ [docToTab d] } := by
  have hjs : jsOr d.name "untitled" = d.name := by
    unfold jsOr
    rw [if_neg hn]
  have hlang : ∀ x : String, jsOr d.language x = d.language := by
    intro x
    unfold jsOr
    rw [if_neg hl]
  have hct : ({ createdTab acc d.id
      { aname := d.name, content := d.content, language := d.language,
        handle := d.handle } with dirty := d.dirty } : Tab) = docToTab d := by
    unfold createdTab docToTab
    dsimp only
    rw [hjs, ensureUniqueName_of_notMem _ _ hname, hlang]
  have hcid : (createdTab acc d.id
      { aname := d.name, content := d.content, language := d.language,
        handle := d.handle }).id = d.id := rfl
  have h1 : List.map
      (fun x => if x.id == (createdTab acc d.id
          { aname := d.name, content := d.content, language := d.language,
            handle := d.handle }).id then docToTab d else x) acc.tabs
      = acc.tabs := by
    conv_rhs => rw [← List.map_id acc.tabs]
    refine List.map_congr_left ?_
    intro x hx
    have hxd : x.id ≠ d.id := fun he => hid (he ▸ List.mem_map_of_mem _ hx)
    simp [hcid, hxd]
  have h2 : List.map
      (fun x => if x.id == (createdTab acc d.id
          { aname := d.name, content := d.content, language := d.language,
            handle := d.handle }).id then docToTab d else x)
      [createdTab acc d.id
        { aname := d.name, content := d.content, language := d.language,
          handle := d.handle }]
      = [docToTab d] := by
    rw [List.map_cons, List.map_nil, hcid]
    rw [if_pos (beq_self_eq_true d.id)]
  unfold loadStep createTab updateTab
  dsimp only
  rw [hct, List.map_append, h1, h2]

theorem loadRestored_tabs_aux (ds : List PersistedDoc) :
    ∀ acc : Session,
      ((acc.tabs.map (fun t => t.name)) ++ ds.map (fun x => x.name)).Nodup →
      ((acc.tabs.map (fun t => t.id)) ++ ds.map (fun x => x.id)).Nodup →
      (∀ d ∈ ds, d.name ≠ "") → (∀ d ∈ ds, d.language ≠ "") →
      (ds.foldl loadStep acc).tabs = acc.tabs ++ ds.map docToTab := by
  induction ds with
  | nil =>
    intro acc _ _ _ _
    simp
  | cons d rest ih =>
    intro acc hnames hids hne hle
    simp only [List.map_cons] at hnames hids
    have hname : d.name ∉ acc.tabs.map (fun t => t.name) :=
      (List.disjoint_of_nodup_append hnames).symm (by simp)
    have hid : d.id ∉ acc.tabs.map (fun t => t.id) :=
      (List.disjoint_of_nodup_append hids).symm (by simp)
    rw [List.foldl_cons,
      loadStep_eq acc d hname (hne d (List.mem_cons_self _ _))
        (hle d (List.mem_cons_self _ _)) hid]
    have hn1 : ((acc.tabs ++ [docToTab d]).map (fun t => t.name)
        ++ rest.map (fun x => x.name)).Nodup := by
      rw [List.map_append]
      have he : [docToTab d].map (fun t => t.name) = [d.name] := rfl
      rw [he, ← List.append_cons]
      exact hnames
    have hi1 : ((acc.tabs ++ [docToTab d]).map (fun t => t.id)
        ++ rest.map (fun x => x.id)).Nodup := by
      rw [List.map_append]
      have he : [docToTab d].map (fun t => t.id) = [d.id] := rfl
      rw [he, ← List.append_cons]
      exact hids
    rw [ih { acc with tabs := acc.tabs ++ [docToTab d] } hn1 hi1
      (fun x hx => hne x (List.mem_cons_of_mem d hx))
      (fun x hx => hle x (List.mem_cons_of_mem d hx))]
    simp

theorem loadRestored_tabs (st : Store) (s : Session)
    (hnames : (st.docs.map (fun x => x.name)).Nodup)
    (hids : (st.docs.map (fun x => x.id)).Nodup)
    (hne : ∀ d ∈ st.docs, d.name ≠ "") (hle : ∀ d ∈ st.docs, d.language ≠ "") :
    (loadRestored st s).tabs = st.docs.map docToTab := by
  unfold loadRestored
  have h := loadRestored_tabs_aux st.docs { s with tabs := [] }
    (by simpa using hnames) (by simpa using hids) hne hle
  simpa using h

theorem loadActive_tabs (st : Store) (s1 : Session) :
    (loadActive st s1).tabs = s1.tabs := by
  unfold loadActive
  split
  · rfl
  · split <;> rfl

theorem loadSession_tabs (st : Store) (s : Session) :
    (loadSession st s).tabs = (loadRestored st s).tabs := by
  unfold loadSession
  cases h : (loadActive st (loadRestored st s)).activeId with
  | none =>
    dsimp only
    exact loadActive_tabs st (loadRestored st s)
  | some a =>
    dsimp only
    rw [(setActiveTab_frame (loadActive st (loadRestored st s)) a).1]
    exact loadActive_tabs st (loadRestored st s)

theorem loadActive_of_found (st : Store) (s1 : Session) (a : String)
    (ha : st.activeId = some a)
    (hany : s1.tabs.any (fun t => t.id == a) = true) :
    loadActive st s1 = { s1 with activeId := some a } := by
  unfold loadActive
  rw [ha]
  dsimp only
  rw [if_pos hany]

theorem loadActive_head (st : Store) (s1 : Session) (t0 : Tab)
    (hcond : (match st.activeId with
        | some a => s1.tabs.any (fun t => t.id == a)
        | none => false) = false)
    (hh : s1.tabs.head? = some t0) :
    loadActive st s1 = { s1 with activeId := some t0.id } := by
  unfold loadActive
  rw [if_neg (by rw [hcond]; exact Bool.false_ne_true), hh]

theorem loadSession_activeId_eq (st : Store) (s : Session) (a : String)
    (h : (loadActive st (loadRestored st s)).activeId = some a)
    (hmem : ∃ x ∈ (loadActive st (loadRestored st s)).tabs, x.id = a) :
    (loadSession st s).activeId = some a := by
  unfold loadSession
  rw [h]
  dsimp only
  exact setActiveTab_activeId_of_mem _ a hmem

/-- Claim C5: persisting the session and then restoring from the store
yields the same set of (id, name, language, content) document tuples,
with content snapshotted byte-for-byte (the trailing-whitespace trim is
never applied to the persisted snapshot); the stored active id is
re-activated when it is among the restored documents, else the first
restored document becomes active. -/
theorem persist_restore_roundtrip (s : Session) (cloneable : Handle → Bool)
    (st : Store) (hwf : wfSession s)
    (hst : (st.docs.map (fun x => x.id)).Nodup) :
    (∀ x, x ∈ (loadSession (persistSession s cloneable st) s).tabs.map tabTuple
        ↔ x ∈ s.tabs.map tabTuple)
    ∧ (∀ t ∈ s.tabs, (snapshotDoc cloneable t).content = t.content)
    ∧ (∀ a, s.activeId = some a → a ∈ s.tabs.map (fun t => t.id) →
        (loadSession (persistSession s cloneable st) s).activeId = some a)
    ∧ (∀ t0, (s.activeId = none ∨
          ∃ a, s.activeId = some a ∧ a ∉ s.tabs.map (fun t => t.id)) →
        (loadSession (persistSession s cloneable st) s).tabs.head? = some t0 →
        (loadSession (persistSession s cloneable st) s).activeId = some t0.id) := by
  unfold wfSession at hwf
  obtain ⟨hwid, hwname, hwne, hwle⟩ := hwf
  have hmem : ∀ e, e ∈ (persistSession s cloneable st).docs
      ↔ e ∈ s.tabs.map (snapshotDoc cloneable) :=
    fun e => mem_persistSession_docs s cloneable st hwid e
  have hid2 : ((persistSession s cloneable st).docs.map (fun x => x.id)).Nodup :=
    persistSession_nodup_id s cloneable st hwid hst
  have hname2 : ((persistSession s cloneable st).docs.map
      (fun x => x.name)).Nodup :=
    nodup_name_of_mem_docs _ (s.tabs.map (snapshotDoc cloneable))
      (fun e he => (hmem e).mp he) hid2
      (by rw [snapshot_map_name]; exact hwname)
  have hne2 : ∀ d ∈ (persistSession s cloneable st).docs, d.name ≠ "" := by
    intro d hd
    obtain ⟨t, ht, rfl⟩ := List.mem_map.mp ((hmem d).mp hd)
    exact hwne t ht
  have hle2 : ∀ d ∈ (persistSession s cloneable st).docs, d.language ≠ "" := by
    intro d hd
    obtain ⟨t, ht, rfl⟩ := List.mem_map.mp ((hmem d).mp hd)
    exact hwle t ht
  have hs1 : (loadRestored (persistSession s cloneable st) s).tabs
      = (persistSession s cloneable st).docs.map docToTab :=
    loadRestored_tabs _ s hname2 hid2 hne2 hle2
  have hLt : (loadSession (persistSession s cloneable st) s).tabs
      = (persistSession s cloneable st).docs.map docToTab := by
    rw [loadSession_tabs, hs1]
  refine ⟨?_, fun t _ => rfl, ?_, ?_⟩
  · intro x
    rw [hLt, List.map_map]
    constructor
    · intro hx
      obtain ⟨e, he, rfl⟩ := List.mem_map.mp hx
      obtain ⟨t, ht, rfl⟩ := List.mem_map.mp ((hmem e).mp he)
      have hmm : tabTuple t ∈ s.tabs.map tabTuple := List.mem_map_of_mem _ ht
      exact hmm
    · intro hx
      obtain ⟨t, ht, rfl⟩ := List.mem_map.mp hx
      exact List.mem_map.mpr ⟨snapshotDoc cloneable t,
        (hmem _).mpr (List.mem_map_of_mem _ ht), rfl⟩
  · intro a ha hain
    obtain ⟨t, ht, hta⟩ := List.mem_map.mp hain
    have hta2 : (docToTab (snapshotDoc cloneable t)).id = a := hta
    have hmem1 : docToTab (snapshotDoc cloneable t)
        ∈ (loadRestored (persistSession s cloneable st) s).tabs := by
      rw [hs1]
      exact List.mem_map_of_mem _ ((hmem _).mpr (List.mem_map_of_mem _ ht))
    have hany : ((loadRestored (persistSession s cloneable st) s).tabs.any
        (fun x => x.id == a)) = true :=
      List.any_eq_true.mpr ⟨_, hmem1, by simp [hta2]⟩
    have hla := loadActive_of_found (persistSession s cloneable st)
      (loadRestored (persistSession s cloneable st) s) a
      (by rw [persistSession_activeId]; exact ha) hany
    refine loadSession_activeId_eq _ _ a ?_ ?_
    · rw [hla]
    · rw [hla]
      exact ⟨_, hmem1, hta2⟩
  · intro t0 hcase hh
    rw [loadSession_tabs] at hh
    have hcond : (match (persistSession s cloneable st).activeId with
        | some a => (loadRestored (persistSession s cloneable st) s).tabs.any
            (fun t => t.id == a)
        | none => false) = false := by
      rcases hcase with hnone | ⟨a, ha, hnin⟩
      · rw [persistSession_activeId, hnone]
      · rw [persistSession_activeId, ha]
        dsimp only
        cases hb : ((loadRestored (persistSession s cloneable st) s).tabs.any
            (fun t => t.id == a)) with
        | false => rfl
        | true =>
          exfalso
          obtain ⟨x, hx, hxa⟩ := List.any_eq_true.mp hb
          rw [hs1] at hx
          obtain ⟨e, he, rfl⟩ := List.mem_map.mp hx
          obtain ⟨t, ht, rfl⟩ := List.mem_map.mp ((hmem e).mp he)
          apply hnin
          have hta : t.id = a := by simpa using hxa
          exact hta ▸ List.mem_map_of_mem _ ht
    have hla := loadActive_head (persistSession s cloneable st)
      (loadRestored (persistSession s cloneable st) s) t0 hcond hh
    refine loadSession_activeId_eq _ _ t0.id ?_ ?_
    · rw [hla]
    · rw [hla]
      refine ⟨t0, ?_, rfl⟩
      exact List.mem_of_mem_head? (by rw [hh]; rfl)

theorem persist_restore_roundtrip_witness :
    (("A", "a.txt", "plaintext", "alpha  ")
        ∈ (loadSession
            (persistSession
              { tabs := [{ id := "A", name := "a.txt", language := "plaintext",
                           content := "alpha  ", handle := none, dirty := true },
                         { id := "B", name := "b.txt", language := "plaintext",
                           content := "beta", handle := none, dirty := false }],
                activeId := some "B",
                settings := { autosave := false, trimTrailing := true },
                compare := { cname := "compare", language := "plaintext",
                             model := none, handle := none },
                view := { mode := "split", layout := "split" },
                scrollLock := { enabled := false, mode := "sync", lineDelta := 0 },
                diffEditor := false, diffEditorEl := false, diffMaster := none }
              (fun _ => true)
              { docs := [{ id := "Z", name := "z.txt", language := "plaintext",
                           content := "old", dirty := false, handle := none }],
                activeId := some "Z" })
            { tabs := [{ id := "A", name := "a.txt", language := "plaintext",
                         content := "alpha  ", handle := none, dirty := true },
                       { id := "B", name := "b.txt", language := "plaintext",
                         content := "beta", handle := none, dirty := false }],
              activeId := some "B",
              settings := { autosave := false, trimTrailing := true },
              compare := { cname := "compare", language := "plaintext",
                           model := none, handle := none },
              view := { mode := "split", layout := "split" },
              scrollLock := { enabled := false, mode := "sync", lineDelta := 0 },
              diffEditor := false, diffEditorEl := false,
              diffMaster := none }).tabs.map tabTuple)
      ∧ (loadSession
            (persistSession
              { tabs := [{ id := "A", name := "a.txt", language := "plaintext",
                           content := "alpha  ", handle := none, dirty := true },
                         { id := "B", name := "b.txt", language := "plaintext",
                           content := "beta", handle := none, dirty := false }],
                activeId := some "B",
                settings := { autosave := false, trimTrailing := true },
                compare := { cname := "compare", language := "plaintext",
                             model := none, handle := none },
                view := { mode := "split", layout := "split" },
                scrollLock := { enabled := false, mode := "sync", lineDelta := 0 },
                diffEditor := false, diffEditorEl := false, diffMaster := none }
              (fun _ => true)
              { docs := [{ id := "Z", name := "z.txt", language := "plaintext",
                           content := "old", dirty := false, handle := none }],
                activeId := some "Z" })
            { tabs := [{ id := "A", name := "a.txt", language := "plaintext",
                         content := "alpha  ", handle := none, dirty := true },
                       { id := "B", name := "b.txt", language := "plaintext",
                         content := "beta", handle := none, dirty := false }],
              activeId := some "B",
              settings := { autosave := false, trimTrailing := true },
              compare := { cname := "compare", language := "plaintext",
                           model := none, handle := none },
              view := { mode := "split", layout := "split" },
              scrollLock := { enabled := false, mode := "sync", lineDelta := 0 },
              diffEditor := false, diffEditorEl := false,
              diffMaster := none }).activeId = some "B" := by
  have h := persist_restore_roundtrip
    { tabs := [{ id := "A", name := "a.txt", language := "plaintext",
                 content := "alpha  ", handle := none, dirty := true },
               { id := "B", name := "b.txt", language := "plaintext",
                 content := "beta", handle := none, dirty := false }],
      activeId := some "B",
      settings := { autosave := false, trimTrailing := true },
      compare := { cname := "compare", language := "plaintext",
                   model := none, handle := none },
      view := { mode := "split", layout := "split" },
      scrollLock := { enabled := false, mode := "sync", lineDelta := 0 },
      diffEditor := false, diffEditorEl := false, diffMaster := none }
    (fun _ => true)
    { docs := [{ id := "Z", name := "z.txt", language := "plaintext",
                 content := "old", dirty := false, handle := none }],
      activeId := some "Z" }
    (by decide) (by decide)
  exact ⟨(h.1 ("A", "a.txt", "plaintext", "alpha  ")).mpr (by decide),
    h.2.2.1 "B" rfl (by decide)⟩

end Moonskai
